import Mathlib

/-!
Verification of the keystone-sdk-rust UR registry codec
(`libs/ur-registry`): the CBOR primitive layer as relied upon by the
crate (via minicbor), the generic map/array traversal helpers, the
registry-type table, and the concrete record types `SuiSignRequest`
(`sui/sui_sign_request.rs`) and `ErgoSignature`
(`ergo/ergo_signature.rs`).

Bytes are modelled as `List Nat` (each element a byte value), fallible
operations return `Except String`, and decoders are parser-style
functions consuming a prefix of the byte list and returning the value
together with the remaining bytes.
-/

set_option maxHeartbeats 1000000
set_option maxRecDepth 100000

/-- Big-endian byte expansion of `n` into exactly `k` bytes
(most-significant first), as used by the CBOR header writers. -/
def beBytes : Nat → Nat → List Nat
  | 0, _ => []
  | k + 1, n => n / 256 ^ k :: beBytes k (n % 256 ^ k)

/-- Read `k` bytes as a big-endian unsigned integer. -/
def readBE : Nat → List Nat → Except String (Nat × List Nat)
  | 0, bs => .ok (0, bs)
  | _ + 1, [] => .error "end of input"
  | k + 1, b :: bs =>
    match readBE k bs with
    | .ok (v, rest) => .ok (b * 256 ^ k + v, rest)
    | .error e => .error e

/-- Canonical CBOR head for major type `maj` and argument `n`, exactly as
written by the minicbor encoder (shortest form). -/
def encHead (maj n : Nat) : List Nat :=
  if n < 24 then [32 * maj + n]
  else if n < 256 then [32 * maj + 24, n]
  else if n < 65536 then (32 * maj + 25) :: beBytes 2 n
  else if n < 4294967296 then (32 * maj + 26) :: beBytes 4 n
  else (32 * maj + 27) :: beBytes 8 n

/-- Decode a CBOR head: returns (major type, argument, rest).  Indefinite
lengths and reserved additional information are decode errors, matching
the reliance of the crate on declared-size items only. -/
def decHead : List Nat → Except String (Nat × Nat × List Nat)
  | [] => .error "end of input"
  | b :: bs =>
    if b % 32 < 24 then .ok (b / 32, b % 32, bs)
    else if b % 32 = 24 then
      match bs with
      | [] => .error "end of input"
      | x :: r => .ok (b / 32, x, r)
    else if b % 32 = 25 then
      match readBE 2 bs with
      | .ok (v, r) => .ok (b / 32, v, r)
      | .error e => .error e
    else if b % 32 = 26 then
      match readBE 4 bs with
      | .ok (v, r) => .ok (b / 32, v, r)
      | .error e => .error e
    else if b % 32 = 27 then
      match readBE 8 bs with
      | .ok (v, r) => .ok (b / 32, v, r)
      | .error e => .error e
    else .error "unsupported additional information"

/-- Split off exactly `n` bytes. -/
def readN (n : Nat) (bs : List Nat) : Except String (List Nat × List Nat) :=
  if n ≤ bs.length then .ok (bs.take n, bs.drop n) else .error "end of input"

/-- CBOR unsigned integer (major type 0). -/
def encUInt (n : Nat) : List Nat := encHead 0 n

/-- CBOR byte string (major type 2). -/
def encBytesV (v : List Nat) : List Nat := encHead 2 v.length ++ v

/-- CBOR text string (major type 3); the text is modelled by its UTF-8
bytes, carried opaquely. -/
def encText (s : List Nat) : List Nat := encHead 3 s.length ++ s

/-- CBOR array header (major type 4). -/
def encArrayH (n : Nat) : List Nat := encHead 4 n

/-- CBOR map header (major type 5). -/
def encMapH (n : Nat) : List Nat := encHead 5 n

/-- CBOR tag (major type 6). -/
def encTag (t : Nat) : List Nat := encHead 6 t

/-- CBOR boolean (major type 7, simple values 20/21). -/
def encBool (b : Bool) : List Nat := [if b then 245 else 244]

/-- Read a CBOR integer as the minicbor `Int` type does for map keys:
major type 0 is the value itself, major type 1 is `-1 - value`. -/
def dInt (bs : List Nat) : Except String (Int × List Nat) :=
  match decHead bs with
  | .error e => .error e
  | .ok (maj, v, r) =>
    if maj = 0 then .ok ((v : Int), r)
    else if maj = 1 then .ok (-1 - (v : Int), r)
    else .error "type mismatch"

/-- Read an unsigned integer that fits `u32`, as the minicbor `u32` reader. -/
def dU32 (bs : List Nat) : Except String (Nat × List Nat) :=
  match decHead bs with
  | .error e => .error e
  | .ok (maj, v, r) =>
    if maj = 0 ∧ v < 4294967296 then .ok (v, r) else .error "type mismatch"

/-- Read a definite-length byte string. -/
def dBytes (bs : List Nat) : Except String (List Nat × List Nat) :=
  match decHead bs with
  | .error e => .error e
  | .ok (maj, v, r) =>
    if maj = 2 then readN v r else .error "type mismatch"

/-- Read a definite-length text string (returned as its UTF-8 bytes). -/
def dStr (bs : List Nat) : Except String (List Nat × List Nat) :=
  match decHead bs with
  | .error e => .error e
  | .ok (maj, v, r) =>
    if maj = 3 then readN v r else .error "type mismatch"

/-- Read an array header (definite length only). -/
def dArrayH (bs : List Nat) : Except String (Nat × List Nat) :=
  match decHead bs with
  | .error e => .error e
  | .ok (maj, v, r) =>
    if maj = 4 then .ok (v, r) else .error "type mismatch"

/-- Read a map header (definite length only). -/
def dMapH (bs : List Nat) : Except String (Nat × List Nat) :=
  match decHead bs with
  | .error e => .error e
  | .ok (maj, v, r) =>
    if maj = 5 then .ok (v, r) else .error "type mismatch"

/-- Read a tag value. -/
def dTag (bs : List Nat) : Except String (Nat × List Nat) :=
  match decHead bs with
  | .error e => .error e
  | .ok (maj, v, r) =>
    if maj = 6 then .ok (v, r) else .error "type mismatch"

/-- Read a boolean. -/
def dBool (bs : List Nat) : Except String (Bool × List Nat) :=
  match decHead bs with
  | .error e => .error e
  | .ok (maj, v, r) =>
    if maj = 7 ∧ v = 21 then .ok (true, r)
    else if maj = 7 ∧ v = 20 then .ok (false, r)
    else .error "type mismatch"

/-- `u8::try_from` on a decoded integer key, with the standard library
`TryFromIntError` display message. -/
def u8TryFrom (k : Int) : Except String Nat :=
  if 0 ≤ k ∧ k ≤ 255 then .ok k.toNat
  else .error "out of range integral type conversion attempted"

theorem readBE_beBytes (k : Nat) :
    ∀ n rest, n < 256 ^ k → readBE k (beBytes k n ++ rest) = .ok (n, rest) := by
  induction k with
  | zero =>
    intro n rest hn
    norm_num at hn
    subst hn
    rfl
  | succ k ih =>
    intro n rest hn
    have hmod : n % 256 ^ k < 256 ^ k := Nat.mod_lt _ (Nat.pos_pow_of_pos k (by omega))
    have hdm : n / 256 ^ k * 256 ^ k + n % 256 ^ k = n := by
      rw [Nat.mul_comm]
      exact Nat.div_add_mod n (256 ^ k)
    simp only [beBytes, List.cons_append, readBE, List.append_eq,
      ih (n % 256 ^ k) rest hmod, hdm]

theorem length_beBytes (k n : Nat) : (beBytes k n).length = k := by
  induction k generalizing n with
  | zero => rfl
  | succ k ih => simp [beBytes, ih]

theorem decHead_encHead (maj n : Nat) (hm : maj < 8) (hn : n < 18446744073709551616)
    (rest : List Nat) : decHead (encHead maj n ++ rest) = .ok (maj, n, rest) := by
  unfold encHead
  by_cases h1 : n < 24
  · simp only [if_pos h1, List.cons_append, List.nil_append, decHead]
    have e1 : (32 * maj + n) % 32 = n := by omega
    have e2 : (32 * maj + n) / 32 = maj := by omega
    rw [e1, e2, if_pos h1]
  · by_cases h2 : n < 256
    · simp only [if_neg h1, if_pos h2, List.cons_append, List.nil_append, decHead]
      have e1 : (32 * maj + 24) % 32 = 24 := by omega
      have e2 : (32 * maj + 24) / 32 = maj := by omega
      rw [e1, e2]
      simp
    · by_cases h3 : n < 65536
      · simp only [if_neg h1, if_neg h2, if_pos h3, List.cons_append, decHead]
        have e1 : (32 * maj + 25) % 32 = 25 := by omega
        have e2 : (32 * maj + 25) / 32 = maj := by omega
        rw [e1, e2]
        have : n < 256 ^ 2 := by norm_num; omega
        rw [readBE_beBytes 2 n rest this]
        simp
      · by_cases h4 : n < 4294967296
        · simp only [if_neg h1, if_neg h2, if_neg h3, if_pos h4, List.cons_append, decHead]
          have e1 : (32 * maj + 26) % 32 = 26 := by omega
          have e2 : (32 * maj + 26) / 32 = maj := by omega
          rw [e1, e2]
          have : n < 256 ^ 4 := by norm_num; omega
          rw [readBE_beBytes 4 n rest this]
          simp
        · simp only [if_neg h1, if_neg h2, if_neg h3, if_neg h4, List.cons_append, decHead]
          have e1 : (32 * maj + 27) % 32 = 27 := by omega
          have e2 : (32 * maj + 27) / 32 = maj := by omega
          rw [e1, e2]
          have : n < 256 ^ 8 := by norm_num; omega
          rw [readBE_beBytes 8 n rest this]
          simp

theorem readN_exact (v rest : List Nat) : readN v.length (v ++ rest) = .ok (v, rest) := by
  unfold readN
  rw [if_pos (by simp), List.take_left, List.drop_left]

theorem encHead_ne_nil (maj n : Nat) : encHead maj n ≠ [] := by
  unfold encHead
  split <;> [skip; split <;> [skip; split <;> [skip; split]]] <;> simp

theorem dInt_enc (k : Nat) (hk : k < 18446744073709551616) (rest : List Nat) :
    dInt (encUInt k ++ rest) = .ok ((k : Int), rest) := by
  unfold dInt encUInt
  rw [decHead_encHead 0 k (by omega) hk rest]
  simp

theorem dU32_enc (k : Nat) (hk : k < 4294967296) (rest : List Nat) :
    dU32 (encUInt k ++ rest) = .ok (k, rest) := by
  unfold dU32 encUInt
  rw [decHead_encHead 0 k (by omega) (by omega) rest]
  simp [hk]

theorem dBytes_enc (v : List Nat) (hv : v.length < 18446744073709551616) (rest : List Nat) :
    dBytes (encBytesV v ++ rest) = .ok (v, rest) := by
  unfold dBytes encBytesV
  rw [List.append_assoc, decHead_encHead 2 v.length (by omega) hv (v ++ rest)]
  simp [readN_exact]

theorem dStr_enc (v : List Nat) (hv : v.length < 18446744073709551616) (rest : List Nat) :
    dStr (encText v ++ rest) = .ok (v, rest) := by
  unfold dStr encText
  rw [List.append_assoc, decHead_encHead 3 v.length (by omega) hv (v ++ rest)]
  simp [readN_exact]

theorem dArrayH_enc (n : Nat) (hn : n < 18446744073709551616) (rest : List Nat) :
    dArrayH (encArrayH n ++ rest) = .ok (n, rest) := by
  unfold dArrayH encArrayH
  rw [decHead_encHead 4 n (by omega) hn rest]
  simp

theorem dMapH_enc (n : Nat) (hn : n < 18446744073709551616) (rest : List Nat) :
    dMapH (encMapH n ++ rest) = .ok (n, rest) := by
  unfold dMapH encMapH
  rw [decHead_encHead 5 n (by omega) hn rest]
  simp

theorem dTag_enc (t : Nat) (ht : t < 18446744073709551616) (rest : List Nat) :
    dTag (encTag t ++ rest) = .ok (t, rest) := by
  unfold dTag encTag
  rw [decHead_encHead 6 t (by omega) ht rest]
  simp

theorem dBool_enc (b : Bool) (rest : List Nat) :
    dBool (encBool b ++ rest) = .ok (b, rest) := by
  cases b <;> rfl

theorem u8TryFrom_small (k : Nat) (hk : k ≤ 255) : u8TryFrom (k : Int) = .ok k := by
  unfold u8TryFrom
  rw [if_pos (by constructor <;> omega)]
  simp

theorem u8TryFrom_large (k : Nat) (hk : 255 < k) :
    u8TryFrom (k : Int) = .error "out of range integral type conversion attempted" := by
  unfold u8TryFrom
  rw [if_neg (by push_neg; intro _; exact_mod_cast hk)]

theorem ne_self_append (x b : List Nat) (hx : x ≠ []) : ¬(b = x ++ b) := by
  intro h
  have := congrArg List.length h
  simp at this
  exact hx this

/-- Skip one CBOR item (fuel-bounded, fuel decreases every step while at
least one byte is consumed per step): this models the minicbor
`Decoder::skip`, which the traversal helper uses to discard the value of
an unrecognized map key.  `c` counts pending items still to be skipped. -/
def skipItems : Nat → Nat → List Nat → Except String (List Nat)
  | 0, _, _ => .error "skip fuel exhausted"
  | _ + 1, 0, bs => .ok bs
  | f + 1, c + 1, bs =>
    match decHead bs with
    | .error e => .error e
    | .ok (maj, v, rest) =>
      if maj = 2 ∨ maj = 3 then
        match readN v rest with
        | .error e => .error e
        | .ok (_, r) => skipItems f c r
      else if maj = 4 then skipItems f (c + v) rest
      else if maj = 5 then skipItems f (c + 2 * v) rest
      else if maj = 6 then skipItems f (c + 1) rest
      else skipItems f c rest

/-- Skip one CBOR item from the front of `bs`. -/
def skipItem (bs : List Nat) : Except String (List Nat) := skipItems (bs.length + 1) 1 bs

/-- `v` is a self-contained encoding of one CBOR item: skipping from
`v ++ rest` succeeds and leaves exactly `rest`. -/
def Skippable (v : List Nat) : Prop :=
  ∀ rest, skipItems (v.length + 1) 1 (v ++ rest) = .ok rest

theorem skipItems_mono (f : Nat) :
    ∀ f' c bs r, skipItems f c bs = .ok r → f ≤ f' → skipItems f' c bs = .ok r := by
  induction f with
  | zero =>
    intro f' c bs r h _
    simp [skipItems] at h
  | succ f ih =>
    intro f' c bs r h hle
    obtain ⟨f2, rfl⟩ : ∃ f2, f' = f2 + 1 := ⟨f' - 1, by omega⟩
    have hf : f ≤ f2 := by omega
    cases c with
    | zero => simpa [skipItems] using h
    | succ c =>
      simp only [skipItems] at h ⊢
      cases hd : decHead bs with
      | error e => simp [hd] at h
      | ok t =>
        obtain ⟨maj, v, rest⟩ := t
        simp only [hd] at h ⊢
        by_cases h23 : maj = 2 ∨ maj = 3
        · rw [if_pos h23] at h ⊢
          cases hr : readN v rest with
          | error e => simp [hr] at h
          | ok t2 =>
            obtain ⟨x, r2⟩ := t2
            simp only [hr] at h ⊢
            exact ih _ _ _ _ h hf
        · rw [if_neg h23] at h ⊢
          by_cases h4 : maj = 4
          · rw [if_pos h4] at h ⊢
            exact ih _ _ _ _ h hf
          · rw [if_neg h4] at h ⊢
            by_cases h5 : maj = 5
            · rw [if_pos h5] at h ⊢
              exact ih _ _ _ _ h hf
            · rw [if_neg h5] at h ⊢
              by_cases h6 : maj = 6
              · rw [if_pos h6] at h ⊢
                exact ih _ _ _ _ h hf
              · rw [if_neg h6] at h ⊢
                exact ih _ _ _ _ h hf

theorem skipItem_of_skippable (v rest : List Nat) (hv : Skippable v) :
    skipItem (v ++ rest) = .ok rest := by
  unfold skipItem
  exact skipItems_mono _ _ _ _ _ (hv rest) (by simp)

/-- Modelled from the spec: one iteration of the `cbor_map` traversal
helper (crate module `cbor`, not included under src/): decode one key as
an integer, invoke the per-key handler, and if the handler consumed
nothing (unknown key), discard the value with a generic skip, so that
"unknown keys are decoded and discarded to preserve forward
compatibility". -/
def mapStep {T : Type} (h : Int → T → List Nat → Except String (T × List Nat))
    (obj : T) (bs : List Nat) : Except String (T × List Nat) :=
  match dInt bs with
  | .error e => .error e
  | .ok (k, bs1) =>
    match h k obj bs1 with
    | .error e => .error e
    | .ok (obj2, bs2) =>
      if bs2 = bs1 then
        match skipItem bs1 with
        | .error e => .error e
        | .ok bs3 => .ok (obj2, bs3)
      else .ok (obj2, bs2)

/-- Modelled from the spec: the `cbor_map` iteration loop: `n` is the
declared map size; each iteration runs `mapStep`. -/
def mapLoop {T : Type} (h : Int → T → List Nat → Except String (T × List Nat)) :
    Nat → T → List Nat → Except String (T × List Nat)
  | 0, obj, bs => .ok (obj, bs)
  | n + 1, obj, bs =>
    match mapStep h obj bs with
    | .error e => .error e
    | .ok (obj2, bs2) => mapLoop h n obj2 bs2

/-- Modelled from the spec: `cbor_map(decoder, accumulator, handler)`
(crate module `cbor`, not included under src/): reads the declared map
size N, then performs N iterations; each iteration decodes one key as an
integer and invokes the handler; indefinite-length maps are rejected. -/
def cborMap {T : Type} (h : Int → T → List Nat → Except String (T × List Nat))
    (obj : T) (bs : List Nat) : Except String (T × List Nat) :=
  match dMapH bs with
  | .error e => .error e
  | .ok (n, bs1) => mapLoop h n obj bs1

/-- Modelled from the spec: one iteration of the `cbor_array` helper;
same pattern as `mapStep` but positional (no key). -/
def arrayLoop {T : Type} (h : T → List Nat → Except String (T × List Nat)) :
    Nat → T → List Nat → Except String (T × List Nat)
  | 0, obj, bs => .ok (obj, bs)
  | n + 1, obj, bs =>
    match h obj bs with
    | .error e => .error e
    | .ok (obj2, bs2) =>
      if bs2 = bs then
        match skipItem bs with
        | .error e => .error e
        | .ok bs3 => arrayLoop h n obj2 bs3
      else arrayLoop h n obj2 bs2

/-- Modelled from the spec: `cbor_array(decoder, accumulator, handler)`
(crate module `cbor`, not included under src/): reads the declared array
size, then invokes the handler once per element. -/
def cborArray {T : Type} (h : T → List Nat → Except String (T × List Nat))
    (obj : T) (bs : List Nat) : Except String (T × List Nat) :=
  match dArrayH bs with
  | .error e => .error e
  | .ok (n, bs1) => arrayLoop h n obj bs1

/-- The handler transforms `obj` into `obj2` by consuming exactly the
entry bytes `e` (one key plus one value) in a single map iteration. -/
def StepsTo {T : Type} (h : Int → T → List Nat → Except String (T × List Nat))
    (obj : T) (e : List Nat) (obj2 : T) : Prop :=
  ∀ rest, mapStep h obj (e ++ rest) = .ok (obj2, rest)

/-- A run of map iterations across a list of encoded entries. -/
inductive Chain {T : Type} (h : Int → T → List Nat → Except String (T × List Nat)) :
    T → List (List Nat) → T → Prop where
  | nil (obj : T) : Chain h obj [] obj
  | cons {obj obj2 obj3 : T} {e : List Nat} {es : List (List Nat)} :
      StepsTo h obj e obj2 → Chain h obj2 es obj3 → Chain h obj (e :: es) obj3

theorem chain_append {T : Type} {h : Int → T → List Nat → Except String (T × List Nat)}
    {a b c : T} {es fs : List (List Nat)} (h1 : Chain h a es b) (h2 : Chain h b fs c) :
    Chain h a (es ++ fs) c := by
  induction h1 with
  | nil _ => exact h2
  | cons hst _ ih => exact Chain.cons hst (ih h2)

theorem chain_loop_partial {T : Type} {h : Int → T → List Nat → Except String (T × List Nat)}
    {a b : T} {es : List (List Nat)} (hc : Chain h a es b) :
    ∀ m bs, mapLoop h (es.length + m) a (es.flatten ++ bs) = mapLoop h m b bs := by
  induction hc with
  | nil _ => intro m bs; simp
  | cons hst _ ih =>
    intro m bs
    rename_i obj obj2 obj3 e es2 _
    have hlen : (e :: es2).length + m = (es2.length + m) + 1 := by simp; omega
    rw [hlen]
    simp only [List.flatten_cons, List.append_assoc, mapLoop, hst (es2.flatten ++ bs)]
    exact ih m bs

theorem chain_loop {T : Type} {h : Int → T → List Nat → Except String (T × List Nat)}
    {a b : T} {es : List (List Nat)} (hc : Chain h a es b) (rest : List Nat) :
    mapLoop h es.length a (es.flatten ++ rest) = .ok (b, rest) := by
  have := chain_loop_partial hc 0 rest
  simpa [mapLoop] using this

theorem mapLoop_error {T : Type} {h : Int → T → List Nat → Except String (T × List Nat)}
    {obj : T} {bs : List Nat} {e : String} (hstep : mapStep h obj bs = .error e)
    {n : Nat} (hn : 0 < n) : mapLoop h n obj bs = .error e := by
  obtain ⟨m, rfl⟩ : ∃ m, n = m + 1 := ⟨n - 1, by omega⟩
  simp [mapLoop, hstep]

/-- Count how many complete CBOR items lie at the top level of `bs`
(used to relate a declared map size to the pairs actually present). -/
def countItems : Nat → List Nat → Option Nat
  | _, [] => some 0
  | 0, _ => none
  | f + 1, bs =>
    match skipItem bs with
    | .error _ => none
    | .ok r =>
      match countItems f r with
      | some n => some (n + 1)
      | none => none

/-- `RegistryType` from `registry_types.rs`: an immutable (name, tag)
pair. -/
structure RegistryType where
  name : String
  tag : Nat
deriving DecidableEq

/-- `RegistryType::get_type`. -/
def RegistryType.getType (r : RegistryType) : String := r.name

/-- `RegistryType::get_tag`. -/
def RegistryType.getTag (r : RegistryType) : Nat := r.tag

/-- `UUID` constant from `registry_types.rs`. -/
def UUID : RegistryType := ⟨"uuid", 37⟩

/-- `CRYPTO_HDKEY` constant from `registry_types.rs`. -/
def CRYPTO_HDKEY : RegistryType := ⟨"crypto-hdkey", 303⟩

/-- `CRYPTO_KEYPATH` constant from `registry_types.rs`. -/
def CRYPTO_KEYPATH : RegistryType := ⟨"crypto-keypath", 304⟩

/-- `CRYPTO_COIN_INFO` constant from `registry_types.rs`. -/
def CRYPTO_COIN_INFO : RegistryType := ⟨"crypto-coin-info", 305⟩

/-- `CRYPTO_ECKEY` constant from `registry_types.rs`. -/
def CRYPTO_ECKEY : RegistryType := ⟨"crypto-eckey", 306⟩

/-- `CRYPTO_OUTPUT` constant from `registry_types.rs`. -/
def CRYPTO_OUTPUT : RegistryType := ⟨"crypto-output", 308⟩

/-- `CRYPTO_PSBT` constant from `registry_types.rs`. -/
def CRYPTO_PSBT : RegistryType := ⟨"crypto-psbt", 310⟩

/-- `CRYPTO_ACCOUNT` constant from `registry_types.rs`. -/
def CRYPTO_ACCOUNT : RegistryType := ⟨"crypto-account", 311⟩

/-- `CRYPTO_MULTI_ACCOUNTS` constant from `registry_types.rs`. -/
def CRYPTO_MULTI_ACCOUNTS : RegistryType := ⟨"crypto-multi-accounts", 1103⟩

/-- `ETH_SIGN_REQUEST` constant from `registry_types.rs`. -/
def ETH_SIGN_REQUEST : RegistryType := ⟨"eth-sign-request", 401⟩

/-- `ETH_SIGNATURE` constant from `registry_types.rs`. -/
def ETH_SIGNATURE : RegistryType := ⟨"eth-signature", 402⟩

/-- `SOL_SIGN_REQUEST` constant from `registry_types.rs`. -/
def SOL_SIGN_REQUEST : RegistryType := ⟨"sol-sign-request", 1101⟩

/-- `SOL_SIGNATURE` constant from `registry_types.rs`. -/
def SOL_SIGNATURE : RegistryType := ⟨"sol-signature", 1102⟩

/-- `COSMOS_SIGN_REQUEST` constant from `registry_types.rs`.  Note the
source really pairs the name string "sol-sign-request" with tag 4101. -/
def COSMOS_SIGN_REQUEST : RegistryType := ⟨"sol-sign-request", 4101⟩

/-- `COSMOS_SIGNATURE` constant from `registry_types.rs`.  Note the
source really pairs the name string "sol-signature" with tag 4102. -/
def COSMOS_SIGNATURE : RegistryType := ⟨"sol-signature", 4102⟩

/-- `TRON_SIGN_REQUEST` constant from `registry_types.rs`.  Note the
source really pairs the name string "tron-sign-request-kt" with tag
5101. -/
def TRON_SIGN_REQUEST : RegistryType := ⟨"tron-sign-request-kt", 5101⟩

/-- `TRON_SIGNATURE` constant from `registry_types.rs`. -/
def TRON_SIGNATURE : RegistryType := ⟨"tron-signature", 5102⟩

/-- Modelled from the spec: one component of a key-path record
(`crypto_key_path.rs`, not included under src/): a hierarchical
derivation index (absent for a wildcard) plus a hardened flag. -/
structure PathComponent where
  index : Option Nat
  hardened : Bool
deriving DecidableEq

/-- Modelled from the spec: the key-path record (`crypto_key_path.rs`,
not included under src/): "a nested record describing a hierarchical
derivation path plus an optional source-fingerprint, itself
independently tagged". -/
structure CryptoKeyPath where
  components : List PathComponent
  sourceFingerprint : Option Nat
  depth : Option Nat
deriving DecidableEq

/-- Modelled from the spec: default-constructed key-path accumulator. -/
def CryptoKeyPath.dflt : CryptoKeyPath := ⟨[], none, none⟩

/-- Modelled from the spec: the key-path map size (1 for the component
list, plus one per optional field present). -/
def CryptoKeyPath.mapSize (p : CryptoKeyPath) : Nat :=
  1 + (match p.sourceFingerprint with | some _ => 1 | none => 0)
    + (match p.depth with | some _ => 1 | none => 0)

/-- Modelled from the spec: encoding of the flattened component list:
each component contributes its index (an unsigned integer, or an empty
array for a wildcard) followed by its hardened flag, matching the
reference vector (hardened 44, 784, 0 then unhardened 0, 0) which encodes
as `8a 182c f5 190310 f5 00 f5 00 f5 00 f5`. -/
def encComponents (cs : List PathComponent) : List Nat :=
  cs.flatMap fun c =>
    (match c.index with
     | some i => encUInt i
     | none => encArrayH 0) ++ encBool c.hardened

/-- Modelled from the spec: `CryptoKeyPath` encode: map of
(1 ↦ flattened component array, optional 2 ↦ source fingerprint,
optional 3 ↦ depth), keys in ascending order. -/
def CryptoKeyPath.encode (p : CryptoKeyPath) : List Nat :=
  encMapH p.mapSize
  ++ encUInt 1 ++ encArrayH (p.components.length * 2) ++ encComponents p.components
  ++ (match p.sourceFingerprint with
      | some sf => encUInt 2 ++ encUInt sf
      | none => [])
  ++ (match p.depth with
      | some dep => encUInt 3 ++ encUInt dep
      | none => [])

/-- Modelled from the spec: read `n` component pairs (index-or-wildcard,
then hardened flag) from the flattened component array. -/
def decodeComponentPairs : Nat → List Nat → Except String (List PathComponent × List Nat)
  | 0, bs => .ok ([], bs)
  | n + 1, bs =>
    match decHead bs with
    | .error e => .error e
    | .ok (maj, v, bs1) =>
      match (if maj = 0 then .ok (some v)
             else if maj = 4 then .ok none
             else .error "type mismatch" : Except String (Option Nat)) with
      | .error e => .error e
      | .ok idx =>
        match dBool bs1 with
        | .error e => .error e
        | .ok (b, bs2) =>
          match decodeComponentPairs n bs2 with
          | .error e => .error e
          | .ok (cs, bs3) => .ok (⟨idx, b⟩ :: cs, bs3)

/-- Modelled from the spec: the per-key decode handler of
`CryptoKeyPath`: key 1 reads the flattened component array (half the
declared array size many pairs), key 2 the source fingerprint, key 3 the
depth; unknown keys are left to the traversal helper. -/
def kpStep (k : Int) (obj : CryptoKeyPath) (bs : List Nat) :
    Except String (CryptoKeyPath × List Nat) :=
  match u8TryFrom k with
  | .error e => .error e
  | .ok key =>
    if key = 1 then
      match dArrayH bs with
      | .error e => .error e
      | .ok (m, bs1) =>
        match decodeComponentPairs (m / 2) bs1 with
        | .error e => .error e
        | .ok (cs, bs2) => .ok ({ obj with components := cs }, bs2)
    else if key = 2 then
      match dU32 bs with
      | .error e => .error e
      | .ok (sf, bs1) => .ok ({ obj with sourceFingerprint := some sf }, bs1)
    else if key = 3 then
      match dU32 bs with
      | .error e => .error e
      | .ok (dep, bs1) => .ok ({ obj with depth := some dep }, bs1)
    else .ok (obj, bs)

/-- Modelled from the spec: `CryptoKeyPath` decode: default-construct and
drive the map traversal helper (parser-style: also returns the remaining
bytes, as the nested decode leaves the outer decoder mid-buffer). -/
def CryptoKeyPath.decode (bs : List Nat) : Except String (CryptoKeyPath × List Nat) :=
  cborMap kpStep CryptoKeyPath.dflt bs

/-- `SignType` from `sui_sign_request.rs` (discriminants 1, 2, 3;
`Single` is the default); named `SuiSignType` here because Mathlib
already has a `SignType`. -/
inductive SuiSignType where
  | Single
  | Multi
  | Message
deriving DecidableEq

/-- The wire discriminant of a `SuiSignType` (`self.get_sign_type() as
u32`). -/
def SuiSignType.toU32 : SuiSignType → Nat
  | .Single => 1
  | .Multi => 2
  | .Message => 3

/-- `SuiSignType::from_u32` from `sui_sign_request.rs`: 1, 2 and 3 map to
the three variants, anything else is an error carrying the formatted
received value (the Rust `match` on the integer is rendered as an
if-chain). -/
def SuiSignType.fromU32 (i : Nat) : Except String SuiSignType :=
  if i = 1 then .ok .Single
  else if i = 2 then .ok .Multi
  else if i = 3 then .ok .Message
  else .error ("invalid value for sign_type in sui-sign-request, expected (1, 2, 3), received "
    ++ toString i)

/-- `SuiSignRequest` from `sui_sign_request.rs` (fields as declared by
`impl_template_struct!`); byte strings are byte lists and the origin
text is carried as its UTF-8 bytes. -/
structure SuiSignRequest where
  requestId : Option (List Nat)
  signData : List Nat
  signType : SuiSignType
  derivationPaths : List CryptoKeyPath
  addresses : Option (List (List Nat))
  origin : Option (List Nat)
deriving DecidableEq

/-- The derived `Default` of `SuiSignRequest` (decode accumulator). -/
def SuiSignRequest.dflt : SuiSignRequest := ⟨none, [], .Single, [], none, none⟩

/-- `MapSize for SuiSignRequest`: 3 always-present fields plus one per
optional field populated. -/
def SuiSignRequest.mapSize (r : SuiSignRequest) : Nat :=
  3 + (match r.requestId with | some _ => 1 | none => 0)
    + (match r.addresses with | some _ => 1 | none => 0)
    + (match r.origin with | some _ => 1 | none => 0)

/-- `SuiSignRequest` encode body from `sui_sign_request.rs`, with the
UUID tag value, the nested key-path tag value and the raw sign-type
discriminant taken as parameters so that tag-tampering and
enum-tampering of the produced buffer can be stated; the real encoder is
this at (37, 304, signType as u32).  The Rust encoder returns
`Err("derivation paths is invalid")` when the derivation-path list is
empty (after the first three fields have gone into its internal writer,
whose buffer is dropped with the error); the caller-visible result is
the same. -/
def encodeSuiCore (uuidTag kpTag stRaw : Nat) (r : SuiSignRequest) :
    Except String (List Nat) :=
  if r.derivationPaths.isEmpty then .error "derivation paths is invalid"
  else .ok (encMapH r.mapSize
    ++ (match r.requestId with
        | some rid => encUInt 1 ++ encTag uuidTag ++ encBytesV rid
        | none => [])
    ++ encUInt 2 ++ encBytesV r.signData
    ++ encUInt 3 ++ encUInt stRaw
    ++ encUInt 4 ++ encArrayH r.derivationPaths.length
    ++ (r.derivationPaths.flatMap fun p => encTag kpTag ++ CryptoKeyPath.encode p)
    ++ (match r.addresses with
        | some addrs => encUInt 5 ++ encArrayH addrs.length ++ addrs.flatMap encBytesV
        | none => [])
    ++ (match r.origin with
        | some o => encUInt 6 ++ encText o
        | none => []))

/-- `SuiSignRequest::encode` (`minicbor::Encode`): fields in ascending
key order 1..6, request id under the UUID tag (37), each derivation path
under the crypto-keypath registry tag (304). -/
def SuiSignRequest.encode (r : SuiSignRequest) : Except String (List Nat) :=
  encodeSuiCore UUID.getTag CRYPTO_KEYPATH.getTag r.signType.toU32 r

/-- Element handler of the nested `cbor_array` over derivation paths in
`SuiSignRequest::decode`: require the crypto-keypath registry tag, then
decode the key path and push it. -/
def kpElemStep (lst : List CryptoKeyPath) (bs : List Nat) :
    Except String (List CryptoKeyPath × List Nat) :=
  match dTag bs with
  | .error e => .error e
  | .ok (t, bs1) =>
    if t = CRYPTO_KEYPATH.getTag then
      match CryptoKeyPath.decode bs1 with
      | .error e => .error e
      | .ok (kp, bs2) => .ok (lst ++ [kp], bs2)
    else .error "CryptoKeyPath tag is invalid"

/-- Element handler of the nested `cbor_array` over addresses in
`SuiSignRequest::decode`: if the accumulator option is populated, read a
byte string and push it; otherwise consume nothing. -/
def addrElemStep (acc : Option (List (List Nat))) (bs : List Nat) :
    Except String (Option (List (List Nat)) × List Nat) :=
  match acc with
  | some v =>
    match dBytes bs with
    | .error e => .error e
    | .ok (a, bs1) => .ok (some (v ++ [a]), bs1)
  | none => .ok (none, bs)

/-- The per-key decode handler of `SuiSignRequest::decode`: the key goes
through `u8::try_from`; keys 1..6 populate the accumulator (the Rust
`match` on the key is rendered as an if-chain), any other key consumes
nothing (the traversal helper then discards the value). -/
def suiStep (k : Int) (obj : SuiSignRequest) (bs : List Nat) :
    Except String (SuiSignRequest × List Nat) :=
  match u8TryFrom k with
  | .error e => .error e
  | .ok key =>
    if key = 1 then
      match dTag bs with
      | .error e => .error e
      | .ok (t, bs1) =>
        if t = UUID.getTag then
          match dBytes bs1 with
          | .error e => .error e
          | .ok (rid, bs2) => .ok ({ obj with requestId := some rid }, bs2)
        else .error "UUID tag is invalid"
    else if key = 2 then
      match dBytes bs with
      | .error e => .error e
      | .ok (sd, bs1) => .ok ({ obj with signData := sd }, bs1)
    else if key = 3 then
      match dU32 bs with
      | .error e => .error e
      | .ok (v, bs1) =>
        match SuiSignType.fromU32 v with
        | .error e => .error e
        | .ok st => .ok ({ obj with signType := st }, bs1)
    else if key = 4 then
      match cborArray kpElemStep obj.derivationPaths bs with
      | .error e => .error e
      | .ok (ps, bs1) => .ok ({ obj with derivationPaths := ps }, bs1)
    else if key = 5 then
      let obj1 := if obj.addresses = none then { obj with addresses := some [] } else obj
      match cborArray addrElemStep obj1.addresses bs with
      | .error e => .error e
      | .ok (acc, bs1) => .ok ({ obj1 with addresses := acc }, bs1)
    else if key = 6 then
      match dStr bs with
      | .error e => .error e
      | .ok (o, bs1) => .ok ({ obj with origin := some o }, bs1)
    else .ok (obj, bs)

/-- `SuiSignRequest::decode` (`minicbor::Decode` via `TryFrom<Vec<u8>>`):
default-construct and drive the map traversal helper; trailing bytes
after the top-level map are not an error. -/
def SuiSignRequest.decode (bs : List Nat) : Except String SuiSignRequest :=
  match cborMap suiStep SuiSignRequest.dflt bs with
  | .error e => .error e
  | .ok (r, _) => .ok r

/-- `ErgoSignature` from `ergo_signature.rs`. -/
structure ErgoSignature where
  requestId : List Nat
  signature : List Nat
deriving DecidableEq

/-- The derived `Default` of `ErgoSignature` (decode accumulator). -/
def ErgoSignature.dflt : ErgoSignature := ⟨[], []⟩

/-- `ErgoSignature` encode body from `ergo_signature.rs`, with the UUID
tag value as a parameter so tag tampering can be stated; the real
encoder is this at tag 37.  Note the declared map size is the literal 3
in the source (`e.map(3)?`) while exactly two key/value pairs follow. -/
def encodeErgoCore (uuidTag : Nat) (r : ErgoSignature) : List Nat :=
  encMapH 3
  ++ encUInt 1 ++ encTag uuidTag ++ encBytesV r.requestId
  ++ encUInt 2 ++ encBytesV r.signature

/-- `ErgoSignature::encode` (`minicbor::Encode`): request id under the
UUID tag, then the signature bytes (the `Int::try_from(REQUEST_ID)`
conversions cannot fail and are dropped). -/
def ErgoSignature.encode (r : ErgoSignature) : List Nat :=
  encodeErgoCore UUID.getTag r

/-- The per-key decode handler of `ErgoSignature::decode`: key 1 requires
the UUID tag then reads the request id, key 2 reads the signature bytes,
any other key consumes nothing. -/
def ergoStep (k : Int) (obj : ErgoSignature) (bs : List Nat) :
    Except String (ErgoSignature × List Nat) :=
  match u8TryFrom k with
  | .error e => .error e
  | .ok key =>
    if key = 1 then
      match dTag bs with
      | .error e => .error e
      | .ok (t, bs1) =>
        if t = UUID.getTag then
          match dBytes bs1 with
          | .error e => .error e
          | .ok (rid, bs2) => .ok ({ obj with requestId := rid }, bs2)
        else .error "UUID tag is invalid"
    else if key = 2 then
      match dBytes bs with
      | .error e => .error e
      | .ok (sg, bs1) => .ok ({ obj with signature := sg }, bs1)
    else .ok (obj, bs)

/-- `ErgoSignature::decode` (`minicbor::Decode`): default-construct and
drive the map traversal helper. -/
def ErgoSignature.decode (bs : List Nat) : Except String ErgoSignature :=
  match cborMap ergoStep ErgoSignature.dflt bs with
  | .error e => .error e
  | .ok (r, _) => .ok r

/-- Numeric-range side conditions under which a component encodes within
`u32`, as the Rust types guarantee. -/
def WFComponent (c : PathComponent) : Prop :=
  match c.index with
  | some i => i < 4294967296
  | none => True

/-- Numeric-range side conditions on a key path, as the Rust types
(`u32` indices and fingerprint, `u32` depth, `usize` lengths)
guarantee. -/
def WFKeyPath (p : CryptoKeyPath) : Prop :=
  (∀ c ∈ p.components, WFComponent c) ∧
  (match p.sourceFingerprint with
   | some sf => sf < 4294967296
   | none => True) ∧
  (match p.depth with
   | some dep => dep < 4294967296
   | none => True) ∧
  p.components.length * 2 < 18446744073709551616

/-- Length side conditions on a `SuiSignRequest`, as the Rust `usize`
and `u32` types guarantee. -/
def WFSui (r : SuiSignRequest) : Prop :=
  (match r.requestId with
   | some rid => rid.length < 18446744073709551616
   | none => True) ∧
  r.signData.length < 18446744073709551616 ∧
  r.derivationPaths.length < 18446744073709551616 ∧
  (∀ p ∈ r.derivationPaths, WFKeyPath p) ∧
  (match r.addresses with
   | some addrs => addrs.length < 18446744073709551616 ∧
       ∀ a ∈ addrs, a.length < 18446744073709551616
   | none => True) ∧
  (match r.origin with
   | some o => o.length < 18446744073709551616
   | none => True)

/-- Length side conditions on an `ErgoSignature`. -/
def WFErgo (r : ErgoSignature) : Prop :=
  r.requestId.length < 18446744073709551616 ∧
  r.signature.length < 18446744073709551616

/-- The per-key entries written by the key-path encoder, in order. -/
def kpEntries (p : CryptoKeyPath) : List (List Nat) :=
  [encUInt 1 ++ encArrayH (p.components.length * 2) ++ encComponents p.components]
  ++ (match p.sourceFingerprint with
      | some sf => [encUInt 2 ++ encUInt sf]
      | none => [])
  ++ (match p.depth with
      | some dep => [encUInt 3 ++ encUInt dep]
      | none => [])

theorem kpEncode_entries (p : CryptoKeyPath) :
    CryptoKeyPath.encode p = encMapH p.mapSize ++ (kpEntries p).flatten := by
  unfold CryptoKeyPath.encode kpEntries
  cases p.sourceFingerprint <;> cases p.depth <;> simp

theorem kpEntries_length (p : CryptoKeyPath) : (kpEntries p).length = p.mapSize := by
  unfold kpEntries CryptoKeyPath.mapSize
  cases p.sourceFingerprint <;> cases p.depth <;> simp

theorem decHead_encUInt (k : Nat) (hk : k < 18446744073709551616) (rest : List Nat) :
    decHead (encUInt k ++ rest) = .ok (0, k, rest) :=
  decHead_encHead 0 k (by norm_num) hk rest

theorem decHead_encArrayH (n : Nat) (hn : n < 18446744073709551616) (rest : List Nat) :
    decHead (encArrayH n ++ rest) = .ok (4, n, rest) :=
  decHead_encHead 4 n (by norm_num) hn rest

theorem decodeComponentPairs_enc :
    ∀ cs : List PathComponent, (∀ c ∈ cs, WFComponent c) →
    ∀ rest, decodeComponentPairs cs.length (encComponents cs ++ rest) = .ok (cs, rest) := by
  intro cs
  induction cs with
  | nil =>
    intro _ rest
    simp [encComponents, decodeComponentPairs]
  | cons c cs ih =>
    intro hwf rest
    have hc := hwf c (by simp)
    have hcs : ∀ x ∈ cs, WFComponent x := fun x hx => hwf x (by simp [hx])
    obtain ⟨ci, ch⟩ := c
    cases ci with
    | some i =>
      have hi : i < 4294967296 := by simpa [WFComponent] using hc
      have hshape : encComponents (PathComponent.mk (some i) ch :: cs) ++ rest
          = encUInt i ++ (encBool ch ++ (encComponents cs ++ rest)) := by
        simp [encComponents, List.append_assoc]
      rw [List.length_cons, hshape]
      simp only [decodeComponentPairs, decHead_encUInt i (by omega), reduceIte,
        dBool_enc, ih hcs rest]
    | none =>
      have hshape : encComponents (PathComponent.mk none ch :: cs) ++ rest
          = encArrayH 0 ++ (encBool ch ++ (encComponents cs ++ rest)) := by
        simp [encComponents, List.append_assoc]
      rw [List.length_cons, hshape]
      simp only [decodeComponentPairs, decHead_encArrayH 0 (by norm_num), reduceIte,
        dBool_enc, ih hcs rest]
      simp

theorem encUInt_ne_nil (n : Nat) : encUInt n ≠ [] := encHead_ne_nil 0 n

theorem encArrayH_ne_nil (n : Nat) : encArrayH n ≠ [] := encHead_ne_nil 4 n

theorem encTag_ne_nil (t : Nat) : encTag t ≠ [] := encHead_ne_nil 6 t

theorem ne_self_append2 (x y b : List Nat) (hx : x ≠ []) : ¬(b = x ++ (y ++ b)) := by
  intro h
  rw [← List.append_assoc] at h
  exact ne_self_append (x ++ y) b (by simp [hx]) h

theorem kp_entry_components (obj : CryptoKeyPath) (cs : List PathComponent)
    (hcs : ∀ c ∈ cs, WFComponent c) (hlen : cs.length * 2 < 18446744073709551616) :
    StepsTo kpStep obj (encUInt 1 ++ encArrayH (cs.length * 2) ++ encComponents cs)
      { obj with components := cs } := by
  intro rest
  have hdiv : cs.length * 2 / 2 = cs.length := by omega
  simp only [mapStep, List.append_assoc, dInt_enc 1 (by norm_num), kpStep,
    u8TryFrom_small 1 (by norm_num), Nat.reduceEqDiff, reduceIte,
    dArrayH_enc (cs.length * 2) hlen, hdiv, decodeComponentPairs_enc cs hcs rest]
  rw [if_neg (ne_self_append2 _ _ _ (encArrayH_ne_nil _))]

theorem kp_entry_sf (obj : CryptoKeyPath) (sf : Nat) (hsf : sf < 4294967296) :
    StepsTo kpStep obj (encUInt 2 ++ encUInt sf)
      { obj with sourceFingerprint := some sf } := by
  intro rest
  simp only [mapStep, List.append_assoc, dInt_enc 2 (by norm_num), kpStep,
    u8TryFrom_small 2 (by norm_num), Nat.reduceEqDiff, reduceIte, dU32_enc sf hsf]
  rw [if_neg (ne_self_append _ _ (encUInt_ne_nil _))]

theorem kp_entry_depth (obj : CryptoKeyPath) (dep : Nat) (hdep : dep < 4294967296) :
    StepsTo kpStep obj (encUInt 3 ++ encUInt dep)
      { obj with depth := some dep } := by
  intro rest
  simp only [mapStep, List.append_assoc, dInt_enc 3 (by norm_num), kpStep,
    u8TryFrom_small 3 (by norm_num), Nat.reduceEqDiff, reduceIte, dU32_enc dep hdep]
  rw [if_neg (ne_self_append _ _ (encUInt_ne_nil _))]

theorem kp_chain (p : CryptoKeyPath) (hwf : WFKeyPath p) :
    Chain kpStep CryptoKeyPath.dflt (kpEntries p) p := by
  obtain ⟨cs, sf, dep⟩ := p
  obtain ⟨h1, h2, h3, h4⟩ := hwf
  cases sf with
  | none =>
    cases dep with
    | none =>
      exact Chain.cons (kp_entry_components _ _ h1 h4) (Chain.nil _)
    | some dep =>
      have hd : dep < 4294967296 := h3
      exact Chain.cons (kp_entry_components _ _ h1 h4)
        (Chain.cons (kp_entry_depth _ _ hd) (Chain.nil _))
  | some sf =>
    have hs : sf < 4294967296 := h2
    cases dep with
    | none =>
      exact Chain.cons (kp_entry_components _ _ h1 h4)
        (Chain.cons (kp_entry_sf _ _ hs) (Chain.nil _))
    | some dep =>
      have hd : dep < 4294967296 := h3
      exact Chain.cons (kp_entry_components _ _ h1 h4)
        (Chain.cons (kp_entry_sf _ _ hs)
          (Chain.cons (kp_entry_depth _ _ hd) (Chain.nil _)))

theorem kp_mapSize_le (p : CryptoKeyPath) : p.mapSize ≤ 3 := by
  unfold CryptoKeyPath.mapSize
  cases p.sourceFingerprint <;> cases p.depth <;> simp

theorem keypath_roundtrip (p : CryptoKeyPath) (hwf : WFKeyPath p) (rest : List Nat) :
    CryptoKeyPath.decode (CryptoKeyPath.encode p ++ rest) = .ok (p, rest) := by
  have hsz := kp_mapSize_le p
  unfold CryptoKeyPath.decode cborMap
  rw [kpEncode_entries, List.append_assoc, dMapH_enc p.mapSize (by omega)]
  rw [← kpEntries_length p]
  exact chain_loop (kp_chain p hwf) rest

theorem UUID_getTag : UUID.getTag = 37 := rfl

theorem CRYPTO_KEYPATH_getTag : CRYPTO_KEYPATH.getTag = 304 := rfl

theorem encBytesV_ne_nil (v : List Nat) : encBytesV v ≠ [] := by
  intro h
  exact encHead_ne_nil 2 v.length (List.append_eq_nil.mp h).1

theorem encText_ne_nil (v : List Nat) : encText v ≠ [] := by
  intro h
  exact encHead_ne_nil 3 v.length (List.append_eq_nil.mp h).1

/-- The optional request-id entry written by the Sui encoder. -/
def suiEntry1 (uuidTag : Nat) (r : SuiSignRequest) : List (List Nat) :=
  match r.requestId with
  | some rid => [encUInt 1 ++ encTag uuidTag ++ encBytesV rid]
  | none => []

/-- The optional addresses entry written by the Sui encoder. -/
def suiEntry5 (r : SuiSignRequest) : List (List Nat) :=
  match r.addresses with
  | some addrs => [encUInt 5 ++ encArrayH addrs.length ++ addrs.flatMap encBytesV]
  | none => []

/-- The optional origin entry written by the Sui encoder. -/
def suiEntry6 (r : SuiSignRequest) : List (List Nat) :=
  match r.origin with
  | some o => [encUInt 6 ++ encText o]
  | none => []

/-- The per-key entries written by the Sui encoder, in ascending key
order. -/
def suiEntriesCore (uuidTag kpTag stRaw : Nat) (r : SuiSignRequest) : List (List Nat) :=
  suiEntry1 uuidTag r
  ++ [encUInt 2 ++ encBytesV r.signData]
  ++ [encUInt 3 ++ encUInt stRaw]
  ++ [encUInt 4 ++ encArrayH r.derivationPaths.length
      ++ (r.derivationPaths.flatMap fun p => encTag kpTag ++ CryptoKeyPath.encode p)]
  ++ suiEntry5 r
  ++ suiEntry6 r

theorem encodeSuiCore_entries (u k s : Nat) (r : SuiSignRequest)
    (hne : ¬r.derivationPaths.isEmpty) :
    encodeSuiCore u k s r = .ok (encMapH r.mapSize ++ (suiEntriesCore u k s r).flatten) := by
  unfold encodeSuiCore suiEntriesCore suiEntry1 suiEntry5 suiEntry6
  rw [if_neg hne]
  cases r.requestId <;> cases r.addresses <;> cases r.origin <;>
    simp [List.append_assoc]

theorem suiEntriesCore_length (u k s : Nat) (r : SuiSignRequest) :
    (suiEntriesCore u k s r).length = r.mapSize := by
  unfold suiEntriesCore suiEntry1 suiEntry5 suiEntry6 SuiSignRequest.mapSize
  cases r.requestId <;> cases r.addresses <;> cases r.origin <;> simp <;> omega

theorem sui_entry_requestId (obj : SuiSignRequest) (rid : List Nat)
    (hrid : rid.length < 18446744073709551616) :
    StepsTo suiStep obj (encUInt 1 ++ encTag 37 ++ encBytesV rid)
      { obj with requestId := some rid } := by
  intro rest
  simp only [mapStep, List.append_assoc, dInt_enc 1 (by norm_num), suiStep,
    u8TryFrom_small 1 (by norm_num), Nat.reduceEqDiff, reduceIte, UUID_getTag,
    dTag_enc 37 (by norm_num), dBytes_enc rid hrid]
  rw [if_neg (ne_self_append2 _ _ _ (encTag_ne_nil _))]

theorem sui_entry_signData (obj : SuiSignRequest) (sd : List Nat)
    (hsd : sd.length < 18446744073709551616) :
    StepsTo suiStep obj (encUInt 2 ++ encBytesV sd) { obj with signData := sd } := by
  intro rest
  simp only [mapStep, List.append_assoc, dInt_enc 2 (by norm_num), suiStep,
    u8TryFrom_small 2 (by norm_num), Nat.reduceEqDiff, reduceIte, dBytes_enc sd hsd]
  rw [if_neg (ne_self_append _ _ (encBytesV_ne_nil _))]

theorem fromU32_toU32 (st : SuiSignType) : SuiSignType.fromU32 st.toU32 = .ok st := by
  cases st <;> rfl

theorem toU32_lt (st : SuiSignType) : st.toU32 < 4294967296 := by
  cases st <;> norm_num [SuiSignType.toU32]

theorem sui_entry_signType (obj : SuiSignRequest) (st : SuiSignType) :
    StepsTo suiStep obj (encUInt 3 ++ encUInt st.toU32) { obj with signType := st } := by
  intro rest
  simp only [mapStep, List.append_assoc, dInt_enc 3 (by norm_num), suiStep,
    u8TryFrom_small 3 (by norm_num), Nat.reduceEqDiff, reduceIte,
    dU32_enc st.toU32 (toU32_lt st), fromU32_toU32]
  rw [if_neg (ne_self_append _ _ (encUInt_ne_nil _))]

theorem arrayLoop_keypaths (ps : List CryptoKeyPath) (hwf : ∀ p ∈ ps, WFKeyPath p) :
    ∀ acc rest, arrayLoop kpElemStep ps.length acc
      ((ps.flatMap fun p => encTag 304 ++ CryptoKeyPath.encode p) ++ rest)
      = .ok (acc ++ ps, rest) := by
  induction ps with
  | nil =>
    intro acc rest
    simp [arrayLoop]
  | cons p ps ih =>
    intro acc rest
    have hp := hwf p (by simp)
    have hps : ∀ x ∈ ps, WFKeyPath x := fun x hx => hwf x (by simp [hx])
    simp only [List.flatMap_cons, List.append_assoc, List.length_cons, arrayLoop,
      kpElemStep, CRYPTO_KEYPATH_getTag, dTag_enc 304 (by norm_num),
      Nat.reduceEqDiff, reduceIte,
      keypath_roundtrip p hp ((ps.flatMap fun x => encTag 304 ++ CryptoKeyPath.encode x) ++ rest)]
    rw [if_neg (ne_self_append2 _ _ _ (encTag_ne_nil _)), ih hps (acc ++ [p]) rest]
    simp

theorem sui_entry_paths (obj : SuiSignRequest) (ps : List CryptoKeyPath)
    (hwf : ∀ p ∈ ps, WFKeyPath p) (hlen : ps.length < 18446744073709551616)
    (hd : obj.derivationPaths = []) :
    StepsTo suiStep obj
      (encUInt 4 ++ encArrayH ps.length
        ++ (ps.flatMap fun p => encTag 304 ++ CryptoKeyPath.encode p))
      { obj with derivationPaths := ps } := by
  intro rest
  simp only [mapStep, List.append_assoc, dInt_enc 4 (by norm_num), suiStep,
    u8TryFrom_small 4 (by norm_num), Nat.reduceEqDiff, reduceIte, cborArray,
    dArrayH_enc ps.length hlen, hd, arrayLoop_keypaths ps hwf [] rest,
    List.nil_append]
  rw [if_neg (ne_self_append2 _ _ _ (encArrayH_ne_nil _))]

theorem arrayLoop_addrs (addrs : List (List Nat))
    (hwf : ∀ a ∈ addrs, a.length < 18446744073709551616) :
    ∀ acc rest, arrayLoop addrElemStep addrs.length (some acc)
      (addrs.flatMap encBytesV ++ rest) = .ok (some (acc ++ addrs), rest) := by
  induction addrs with
  | nil =>
    intro acc rest
    simp [arrayLoop]
  | cons a addrs ih =>
    intro acc rest
    have ha := hwf a (by simp)
    have has : ∀ x ∈ addrs, x.length < 18446744073709551616 :=
      fun x hx => hwf x (by simp [hx])
    simp only [List.flatMap_cons, List.append_assoc, List.length_cons, arrayLoop,
      addrElemStep, dBytes_enc a ha]
    rw [if_neg (ne_self_append _ _ (encBytesV_ne_nil _)), ih has (acc ++ [a]) rest]
    simp

theorem sui_entry_addresses (obj : SuiSignRequest) (addrs : List (List Nat))
    (hwa : ∀ a ∈ addrs, a.length < 18446744073709551616)
    (hlen : addrs.length < 18446744073709551616) (hao : obj.addresses = none) :
    StepsTo suiStep obj
      (encUInt 5 ++ encArrayH addrs.length ++ addrs.flatMap encBytesV)
      { obj with addresses := some addrs } := by
  intro rest
  simp only [mapStep, List.append_assoc, dInt_enc 5 (by norm_num), suiStep,
    u8TryFrom_small 5 (by norm_num), Nat.reduceEqDiff, reduceIte, hao, cborArray,
    dArrayH_enc addrs.length hlen, arrayLoop_addrs addrs hwa [] rest,
    List.nil_append]
  rw [if_neg (ne_self_append2 _ _ _ (encArrayH_ne_nil _))]

theorem sui_entry_origin (obj : SuiSignRequest) (o : List Nat)
    (ho : o.length < 18446744073709551616) :
    StepsTo suiStep obj (encUInt 6 ++ encText o) { obj with origin := some o } := by
  intro rest
  simp only [mapStep, List.append_assoc, dInt_enc 6 (by norm_num), suiStep,
    u8TryFrom_small 6 (by norm_num), Nat.reduceEqDiff, reduceIte, dStr_enc o ho]
  rw [if_neg (ne_self_append _ _ (encText_ne_nil _))]

theorem sui_chain_pre (r : SuiSignRequest) (hwf : WFSui r) :
    Chain suiStep SuiSignRequest.dflt
      (suiEntry1 37 r ++ [encUInt 2 ++ encBytesV r.signData])
      ⟨r.requestId, r.signData, .Single, [], none, none⟩ := by
  obtain ⟨rid, sd, st, dp, ad, og⟩ := r
  obtain ⟨h1, h2, h3, h4, h5, h6⟩ := hwf
  cases rid with
  | none =>
    exact Chain.cons (sui_entry_signData _ _ h2) (Chain.nil _)
  | some rid =>
    have hr : rid.length < 18446744073709551616 := h1
    exact Chain.cons (sui_entry_requestId _ _ hr)
      (Chain.cons (sui_entry_signData _ _ h2) (Chain.nil _))

theorem sui_chain_pre3 (r : SuiSignRequest) (hwf : WFSui r) :
    Chain suiStep SuiSignRequest.dflt
      (suiEntry1 37 r ++ [encUInt 2 ++ encBytesV r.signData]
        ++ [encUInt 3 ++ encUInt r.signType.toU32])
      ⟨r.requestId, r.signData, r.signType, [], none, none⟩ :=
  chain_append (sui_chain_pre r hwf)
    (Chain.cons (sui_entry_signType _ r.signType) (Chain.nil _))

theorem sui_chain (r : SuiSignRequest) (hwf : WFSui r) :
    Chain suiStep SuiSignRequest.dflt (suiEntriesCore 37 304 r.signType.toU32 r) r := by
  obtain ⟨rid, sd, st, dp, ad, og⟩ := r
  have hwf2 := hwf
  obtain ⟨h1, h2, h3, h4, h5, h6⟩ := hwf2
  unfold suiEntriesCore
  have hc123 : Chain suiStep SuiSignRequest.dflt
      (suiEntry1 37 ⟨rid, sd, st, dp, ad, og⟩
        ++ [encUInt 2 ++ encBytesV sd] ++ [encUInt 3 ++ encUInt st.toU32])
      ⟨rid, sd, st, [], none, none⟩ := sui_chain_pre3 _ hwf
  have hc4 : Chain suiStep (⟨rid, sd, st, [], none, none⟩ : SuiSignRequest)
      [encUInt 4 ++ encArrayH dp.length
        ++ (dp.flatMap fun p => encTag 304 ++ CryptoKeyPath.encode p)]
      ⟨rid, sd, st, dp, none, none⟩ :=
    Chain.cons (sui_entry_paths _ dp h4 h3 rfl) (Chain.nil _)
  have hc5 : Chain suiStep (⟨rid, sd, st, dp, none, none⟩ : SuiSignRequest)
      (suiEntry5 ⟨rid, sd, st, dp, ad, og⟩) ⟨rid, sd, st, dp, ad, none⟩ := by
    cases ad with
    | none => exact Chain.nil _
    | some addrs =>
      have h5s : addrs.length < 18446744073709551616 ∧
          ∀ a ∈ addrs, a.length < 18446744073709551616 := h5
      exact Chain.cons (sui_entry_addresses _ addrs h5s.2 h5s.1 rfl) (Chain.nil _)
  have hc6 : Chain suiStep (⟨rid, sd, st, dp, ad, none⟩ : SuiSignRequest)
      (suiEntry6 ⟨rid, sd, st, dp, ad, og⟩) ⟨rid, sd, st, dp, ad, og⟩ := by
    cases og with
    | none => exact Chain.nil _
    | some o =>
      have h6s : o.length < 18446744073709551616 := h6
      exact Chain.cons (sui_entry_origin _ o h6s) (Chain.nil _)
  exact chain_append (chain_append (chain_append hc123 hc4) hc5) hc6

theorem sui_mapSize_le (r : SuiSignRequest) : r.mapSize ≤ 6 := by
  unfold SuiSignRequest.mapSize
  cases r.requestId <;> cases r.addresses <;> cases r.origin <;> simp

theorem sui_roundtrip (r : SuiSignRequest) (hwf : WFSui r)
    (hne : r.derivationPaths ≠ []) (bs : List Nat)
    (henc : SuiSignRequest.encode r = .ok bs) :
    SuiSignRequest.decode bs = .ok r := by
  unfold SuiSignRequest.encode at henc
  rw [UUID_getTag, CRYPTO_KEYPATH_getTag,
    encodeSuiCore_entries _ _ _ r (by simpa [List.isEmpty_iff] using hne)] at henc
  have hbs : bs = encMapH r.mapSize ++ (suiEntriesCore 37 304 r.signType.toU32 r).flatten := by
    cases henc
    rfl
  subst hbs
  have hsz := sui_mapSize_le r
  unfold SuiSignRequest.decode cborMap
  rw [show (suiEntriesCore 37 304 r.signType.toU32 r).flatten
      = (suiEntriesCore 37 304 r.signType.toU32 r).flatten ++ [] from by simp]
  simp only [dMapH_enc r.mapSize (by omega)]
  rw [← suiEntriesCore_length 37 304 r.signType.toU32 r]
  simp only [chain_loop (sui_chain r hwf) []]

/-- The two per-key entries written by the Ergo encoder (the valid wire
image of an `ErgoSignature` is the two-entry map made of these). -/
def ergoEntries (re : ErgoSignature) : List (List Nat) :=
  [encUInt 1 ++ encTag 37 ++ encBytesV re.requestId,
   encUInt 2 ++ encBytesV re.signature]

theorem ergo_entry_requestId (obj : ErgoSignature) (rid : List Nat)
    (hrid : rid.length < 18446744073709551616) :
    StepsTo ergoStep obj (encUInt 1 ++ encTag 37 ++ encBytesV rid)
      { obj with requestId := rid } := by
  intro rest
  simp only [mapStep, List.append_assoc, dInt_enc 1 (by norm_num), ergoStep,
    u8TryFrom_small 1 (by norm_num), Nat.reduceEqDiff, reduceIte, UUID_getTag,
    dTag_enc 37 (by norm_num), dBytes_enc rid hrid]
  rw [if_neg (ne_self_append2 _ _ _ (encTag_ne_nil _))]

theorem ergo_entry_signature (obj : ErgoSignature) (sg : List Nat)
    (hsg : sg.length < 18446744073709551616) :
    StepsTo ergoStep obj (encUInt 2 ++ encBytesV sg) { obj with signature := sg } := by
  intro rest
  simp only [mapStep, List.append_assoc, dInt_enc 2 (by norm_num), ergoStep,
    u8TryFrom_small 2 (by norm_num), Nat.reduceEqDiff, reduceIte, dBytes_enc sg hsg]
  rw [if_neg (ne_self_append _ _ (encBytesV_ne_nil _))]

theorem ergo_chain (re : ErgoSignature) (hwf : WFErgo re) :
    Chain ergoStep ErgoSignature.dflt (ergoEntries re) re := by
  obtain ⟨rid, sg⟩ := re
  obtain ⟨h1, h2⟩ := hwf
  exact Chain.cons (ergo_entry_requestId _ _ h1)
    (Chain.cons (ergo_entry_signature _ _ h2) (Chain.nil _))

theorem ergo_decode_valid (re : ErgoSignature) (hwf : WFErgo re) :
    ErgoSignature.decode (encMapH 2 ++ (ergoEntries re).flatten) = .ok re := by
  unfold ErgoSignature.decode cborMap
  rw [show (ergoEntries re).flatten = (ergoEntries re).flatten ++ [] from by simp]
  simp only [dMapH_enc 2 (by norm_num)]
  rw [show (2 : Nat) = (ergoEntries re).length from by unfold ergoEntries; simp]
  simp only [chain_loop (ergo_chain re hwf) []]

theorem chain_split {T : Type} {h : Int → T → List Nat → Except String (T × List Nat)}
    {c : T} {fs : List (List Nat)} :
    ∀ es : List (List Nat), ∀ a : T, Chain h a (es ++ fs) c →
      ∃ b, Chain h a es b ∧ Chain h b fs c := by
  intro es
  induction es with
  | nil =>
    intro a hch
    exact ⟨a, Chain.nil _, by simpa using hch⟩
  | cons e es ih =>
    intro a hch
    cases hch with
    | cons hst htail =>
      obtain ⟨b, hb1, hb2⟩ := ih _ htail
      exact ⟨b, Chain.cons hst hb1, hb2⟩

theorem chain_insert {T : Type} {h : Int → T → List Nat → Except String (T × List Nat)}
    {a c : T} {es fs : List (List Nat)} {e : List Nat} (hch : Chain h a (es ++ fs) c)
    (hneutral : ∀ t, StepsTo h t e t) : Chain h a (es ++ e :: fs) c := by
  obtain ⟨b, h1, h2⟩ := chain_split es a hch
  exact chain_append h1 (Chain.cons (hneutral b) h2)

theorem sui_neutral (k : Nat) (hk : k < 256) (hk1 : k ≠ 1) (hk2 : k ≠ 2) (hk3 : k ≠ 3)
    (hk4 : k ≠ 4) (hk5 : k ≠ 5) (hk6 : k ≠ 6) (v : List Nat) (hv : Skippable v)
    (obj : SuiSignRequest) : StepsTo suiStep obj (encUInt k ++ v) obj := by
  intro rest
  simp [mapStep, List.append_assoc, dInt_enc k (by omega), suiStep,
    u8TryFrom_small k (by omega), hk1, hk2, hk3, hk4, hk5, hk6,
    skipItem_of_skippable v rest hv]

theorem ergo_neutral (k : Nat) (hk : k < 256) (hk1 : k ≠ 1) (hk2 : k ≠ 2)
    (v : List Nat) (hv : Skippable v) (obj : ErgoSignature) :
    StepsTo ergoStep obj (encUInt k ++ v) obj := by
  intro rest
  simp [mapStep, List.append_assoc, dInt_enc k (by omega), ergoStep,
    u8TryFrom_small k (by omega), hk1, hk2, skipItem_of_skippable v rest hv]

theorem sui_badUuid_step (obj : SuiSignRequest) (t : Nat)
    (ht64 : t < 18446744073709551616) (ht : t ≠ 37) (rid X : List Nat) :
    mapStep suiStep obj ((encUInt 1 ++ encTag t ++ encBytesV rid) ++ X)
      = .error "UUID tag is invalid" := by
  simp only [mapStep, List.append_assoc, dInt_enc 1 (by norm_num), suiStep,
    u8TryFrom_small 1 (by norm_num), Nat.reduceEqDiff, reduceIte, UUID_getTag,
    dTag_enc t ht64]
  rw [if_neg ht]

theorem ergo_badUuid_step (obj : ErgoSignature) (t : Nat)
    (ht64 : t < 18446744073709551616) (ht : t ≠ 37) (rid X : List Nat) :
    mapStep ergoStep obj ((encUInt 1 ++ encTag t ++ encBytesV rid) ++ X)
      = .error "UUID tag is invalid" := by
  simp only [mapStep, List.append_assoc, dInt_enc 1 (by norm_num), ergoStep,
    u8TryFrom_small 1 (by norm_num), Nat.reduceEqDiff, reduceIte, UUID_getTag,
    dTag_enc t ht64]
  rw [if_neg ht]

theorem sui_badKpTag_step (obj : SuiSignRequest) (u : Nat)
    (hu64 : u < 18446744073709551616) (hu : u ≠ 304) (m : Nat) (hm : 0 < m)
    (hm64 : m < 18446744073709551616) (Y : List Nat) :
    mapStep suiStep obj (encUInt 4 ++ (encArrayH m ++ (encTag u ++ Y)))
      = .error "CryptoKeyPath tag is invalid" := by
  obtain ⟨m2, rfl⟩ : ∃ m2, m = m2 + 1 := ⟨m - 1, by omega⟩
  simp only [mapStep, List.append_assoc, dInt_enc 4 (by norm_num), suiStep,
    u8TryFrom_small 4 (by norm_num), Nat.reduceEqDiff, reduceIte, cborArray,
    dArrayH_enc (m2 + 1) hm64, arrayLoop, kpElemStep, CRYPTO_KEYPATH_getTag,
    dTag_enc u hu64]
  rw [if_neg hu]

theorem sui_badSignType_step (obj : SuiSignRequest) (x : Nat) (hx32 : x < 4294967296)
    (hx1 : x ≠ 1) (hx2 : x ≠ 2) (hx3 : x ≠ 3) (X : List Nat) :
    mapStep suiStep obj ((encUInt 3 ++ encUInt x) ++ X)
      = .error ("invalid value for sign_type in sui-sign-request, expected (1, 2, 3), received "
        ++ toString x) := by
  simp only [mapStep, List.append_assoc, dInt_enc 3 (by norm_num), suiStep,
    u8TryFrom_small 3 (by norm_num), Nat.reduceEqDiff, reduceIte, dU32_enc x hx32,
    SuiSignType.fromU32]
  rw [if_neg hx1, if_neg hx2, if_neg hx3]

theorem sui_bigKey_step (obj : SuiSignRequest) (k : Nat) (hk : 255 < k)
    (hk64 : k < 18446744073709551616) (X : List Nat) :
    mapStep suiStep obj (encUInt k ++ X)
      = .error "out of range integral type conversion attempted" := by
  simp [mapStep, dInt_enc k hk64, suiStep, u8TryFrom_large k hk]

theorem ergo_bigKey_step (obj : ErgoSignature) (k : Nat) (hk : 255 < k)
    (hk64 : k < 18446744073709551616) (X : List Nat) :
    mapStep ergoStep obj (encUInt k ++ X)
      = .error "out of range integral type conversion attempted" := by
  simp [mapStep, dInt_enc k hk64, ergoStep, u8TryFrom_large k hk]

/-- The request-id bytes of the reference test vector in
`sui_sign_request.rs`. -/
def suiTestRequestId : List Nat := [155, 29, 235, 77, 59, 125, 75, 173, 155, 221, 43, 13,
  123, 61, 203, 109]

/-- The sign-data payload of the reference test vector (217 bytes). -/
def suiTestSignData : List Nat := [0, 0, 2, 0, 32, 31, 249, 21, 165, 233, 227, 47,
  219, 224, 19, 85, 53, 182, 198, 154, 0, 169, 128, 154,
  175, 127, 124, 2, 117, 211, 35, 156, 167, 157, 178, 13,
  100, 0, 8, 16, 39, 0, 0, 0, 0, 0, 0, 2,
  2, 0, 1, 1, 1, 0, 1, 1, 2, 0, 0, 1,
  0, 0, 235, 230, 35, 227, 59, 115, 7, 241, 53, 15,
  137, 52, 190, 179, 251, 22, 186, 239, 15, 193, 179, 241,
  185, 40, 104, 238, 195, 148, 64, 147, 136, 105, 1, 162,
  227, 228, 41, 48, 103, 93, 149, 113, 164, 103, 235, 93,
  75, 34, 85, 60, 147, 204, 184, 78, 144, 151, 151, 46,
  2, 196, 144, 180, 231, 162, 42, 183, 50, 0, 0, 0,
  0, 0, 0, 32, 23, 108, 71, 39, 67, 49, 5, 218,
  52, 32, 159, 4, 172, 63, 34, 225, 146, 162, 87, 61,
  121, 72, 203, 47, 171, 222, 125, 19, 167, 244, 241, 73,
  235, 230, 35, 227, 59, 115, 7, 241, 53, 15, 137, 52,
  190, 179, 251, 22, 186, 239, 15, 193, 179, 241, 185, 40,
  104, 238, 195, 148, 64, 147, 136, 105, 232, 3, 0, 0,
  0, 0, 0, 0, 100, 0, 0, 0, 0, 0, 0, 0,
  0]

/-- The address bytes of the reference test vector. -/
def suiTestAddress : List Nat := [235, 230, 35, 227, 59, 115, 7, 241, 53, 15, 137, 52,
  190, 179, 251, 22, 186, 239, 15, 193, 179, 241, 185, 40,
  104, 238, 195, 148, 64, 147, 136, 105]

/-- The key path of the reference test vector (indices 44, 784, 0
hardened then 0, 0 unhardened) with source fingerprint 78230804. -/
def suiTestKeyPath : CryptoKeyPath :=
  ⟨[⟨some 44, true⟩, ⟨some 784, true⟩, ⟨some 0, true⟩, ⟨some 0, true⟩,
    ⟨some 0, true⟩], some 2015561732, none⟩

/-- The record built in `tests::test_encode` / `tests::test_decode` of
`sui_sign_request.rs` (origin "Sui Wallet" as UTF-8 bytes). -/
def suiTestRecord : SuiSignRequest :=
  ⟨some suiTestRequestId, suiTestSignData, .Single, [suiTestKeyPath],
   some [suiTestAddress], some [83, 117, 105, 32, 87, 97, 108, 108, 101, 116]⟩

/-- The expected encoding from the reference test suite (318 bytes,
`a601d825509b1deb4d...`). -/
def suiTestBytes : List Nat := [166, 1, 216, 37, 80, 155, 29, 235, 77, 59, 125, 75,
  173, 155, 221, 43, 13, 123, 61, 203, 109, 2, 88, 217,
  0, 0, 2, 0, 32, 31, 249, 21, 165, 233, 227, 47,
  219, 224, 19, 85, 53, 182, 198, 154, 0, 169, 128, 154,
  175, 127, 124, 2, 117, 211, 35, 156, 167, 157, 178, 13,
  100, 0, 8, 16, 39, 0, 0, 0, 0, 0, 0, 2,
  2, 0, 1, 1, 1, 0, 1, 1, 2, 0, 0, 1,
  0, 0, 235, 230, 35, 227, 59, 115, 7, 241, 53, 15,
  137, 52, 190, 179, 251, 22, 186, 239, 15, 193, 179, 241,
  185, 40, 104, 238, 195, 148, 64, 147, 136, 105, 1, 162,
  227, 228, 41, 48, 103, 93, 149, 113, 164, 103, 235, 93,
  75, 34, 85, 60, 147, 204, 184, 78, 144, 151, 151, 46,
  2, 196, 144, 180, 231, 162, 42, 183, 50, 0, 0, 0,
  0, 0, 0, 32, 23, 108, 71, 39, 67, 49, 5, 218,
  52, 32, 159, 4, 172, 63, 34, 225, 146, 162, 87, 61,
  121, 72, 203, 47, 171, 222, 125, 19, 167, 244, 241, 73,
  235, 230, 35, 227, 59, 115, 7, 241, 53, 15, 137, 52,
  190, 179, 251, 22, 186, 239, 15, 193, 179, 241, 185, 40,
  104, 238, 195, 148, 64, 147, 136, 105, 232, 3, 0, 0,
  0, 0, 0, 0, 100, 0, 0, 0, 0, 0, 0, 0,
  0, 3, 1, 4, 129, 217, 1, 48, 162, 1, 138, 24,
  44, 245, 25, 3, 16, 245, 0, 245, 0, 245, 0, 245,
  2, 26, 120, 35, 8, 4, 5, 129, 88, 32, 235, 230,
  35, 227, 59, 115, 7, 241, 53, 15, 137, 52, 190, 179,
  251, 22, 186, 239, 15, 193, 179, 241, 185, 40, 104, 238,
  195, 148, 64, 147, 136, 105, 6, 106, 83, 117, 105, 32,
  87, 97, 108, 108, 101, 116]


theorem sui_mapSize_pos (r : SuiSignRequest) : 0 < r.mapSize := by
  unfold SuiSignRequest.mapSize
  cases r.requestId <;> cases r.addresses <;> cases r.origin <;> simp

/-- Witness fixture: a minimal well-formed `SuiSignRequest` (one empty
key path, all optional fields absent). -/
def wSui : SuiSignRequest := ⟨none, [], .Single, [⟨[], none, none⟩], none, none⟩

/-- Witness fixture: a maximal well-formed `SuiSignRequest` (all
optional fields present). -/
def wSuiMax : SuiSignRequest :=
  ⟨some [1, 2], [3], .Multi, [⟨[⟨some 5, true⟩, ⟨none, false⟩], some 7, some 2⟩],
   some [[8], [9, 10]], some [65, 66]⟩

/-- Witness fixture: a `SuiSignRequest` with a populated request id. -/
def wSuiRid : SuiSignRequest := ⟨some [171], [], .Single, [⟨[], none, none⟩], none, none⟩

/-- Witness fixture: an `ErgoSignature`. -/
def wErgo : ErgoSignature := ⟨[12], [34]⟩

theorem wSui_wf : WFSui wSui := by
  refine ⟨trivial, by norm_num [wSui], by norm_num [wSui], ?_, trivial, trivial⟩
  intro p hp
  simp [wSui] at hp
  subst hp
  exact ⟨by simp, trivial, trivial, by norm_num⟩

theorem wSuiMax_wf : WFSui wSuiMax := by
  refine ⟨by norm_num [wSuiMax], by norm_num [wSuiMax], by norm_num [wSuiMax], ?_, ?_, ?_⟩
  · intro p hp
    simp [wSuiMax] at hp
    subst hp
    refine ⟨?_, by norm_num, by norm_num, by norm_num⟩
    intro c hc
    simp at hc
    rcases hc with h | h <;> subst h <;> simp [WFComponent]
  · exact ⟨by norm_num, by intro a ha; simp at ha; rcases ha with h | h <;> subst h <;> norm_num⟩
  · norm_num [wSuiMax]

theorem wSuiRid_wf : WFSui wSuiRid := by
  refine ⟨by norm_num [wSuiRid], by norm_num [wSuiRid], by norm_num [wSuiRid], ?_,
    trivial, trivial⟩
  intro p hp
  simp [wSuiRid] at hp
  subst hp
  exact ⟨by simp, trivial, trivial, by norm_num⟩

/-- C1: decode(encode(r)) round-trips for `SuiSignRequest` with a
non-empty derivation-path list (all optional-field combinations), but
FAILS for `ErgoSignature`: its encoder declares map size 3 while writing
two pairs, so decoding its own output runs out of input on the third
key.  The first conjunct settles the Sui half universally; the second
evaluates the Ergo half at a concrete record. -/
theorem claim_C1 (rs : SuiSignRequest) (hwf : WFSui rs)
    (hne : rs.derivationPaths ≠ []) :
    Except.bind (SuiSignRequest.encode rs) SuiSignRequest.decode = .ok rs ∧
    ErgoSignature.decode (ErgoSignature.encode ⟨[155], [171]⟩) = .error "end of input" := by
  constructor
  · have hne2 : ¬rs.derivationPaths.isEmpty := by simpa [List.isEmpty_iff] using hne
    have henc : SuiSignRequest.encode rs
        = .ok (encMapH rs.mapSize ++ (suiEntriesCore 37 304 rs.signType.toU32 rs).flatten) := by
      unfold SuiSignRequest.encode
      rw [UUID_getTag, CRYPTO_KEYPATH_getTag]
      exact encodeSuiCore_entries _ _ _ rs hne2
    rw [henc]
    simp only [Except.bind]
    exact sui_roundtrip rs hwf hne _ henc
  · rfl

theorem claim_C1_witness :
    (Except.bind (SuiSignRequest.encode wSui) SuiSignRequest.decode = .ok wSui ∧
      ErgoSignature.decode (ErgoSignature.encode ⟨[155], [171]⟩) = .error "end of input") ∧
    (Except.bind (SuiSignRequest.encode wSuiMax) SuiSignRequest.decode = .ok wSuiMax ∧
      ErgoSignature.decode (ErgoSignature.encode ⟨[155], [171]⟩) = .error "end of input") :=
  ⟨claim_C1 wSui wSui_wf (by decide), claim_C1 wSuiMax wSuiMax_wf (by decide)⟩

/-- C2: the claim that `ErgoSignature::encode` declares a map size equal
to the two key/value pairs it writes is FALSE on the code: the encoder
emits the literal map size 3 (`e.map(3)?`) and then exactly two pairs
(four top-level CBOR items) follow it on the wire. -/
theorem claim_C2 :
    ErgoSignature.encode ⟨[1], [2]⟩ = [163, 1, 216, 37, 65, 1, 2, 65, 2] ∧
    dMapH (ErgoSignature.encode ⟨[1], [2]⟩) = .ok (3, [1, 216, 37, 65, 1, 2, 65, 2]) ∧
    countItems 8 [1, 216, 37, 65, 1, 2, 65, 2] = some 4 :=
  ⟨rfl, rfl, rfl⟩

/-- C3: encoding the reference record (request id
`9b1deb4d3b7d4bad9bdd2b0d7b3dcb6d`, single-signer discriminator, key
path 44, 784, 0 hardened then 0, 0 unhardened with source fingerprint
`78230804`, one address,
origin "Sui Wallet") produces exactly the reference byte sequence
`a601d825509b1deb4d...`, and decoding that byte sequence reproduces the
record. -/
theorem claim_C3 :
    SuiSignRequest.encode suiTestRecord = .ok suiTestBytes ∧
    SuiSignRequest.decode suiTestBytes = .ok suiTestRecord :=
  ⟨rfl, rfl⟩

/-- C4: inserting one extra key/value pair with an unrecognized key
(anywhere between existing entries, declared map size incremented)
into a valid encoding of a `SuiSignRequest` or `ErgoSignature` leaves
decode successful with the same record, the extra value being consumed
and discarded by the generic skip of the traversal helper.  (For
`ErgoSignature` the valid encoding is the two-entry map `encMapH 2 ++
(ergoEntries re).flatten`; the buggy `encode` output itself is not
decodable, see C1/C2.) -/
theorem claim_C4 (rs : SuiSignRequest) (hwf : WFSui rs) (hne : rs.derivationPaths ≠ [])
    (es1 es2 : List (List Nat))
    (hsplit : suiEntriesCore 37 304 rs.signType.toU32 rs = es1 ++ es2)
    (k : Nat) (hk : k < 256) (hk1 : k ≠ 1) (hk2 : k ≠ 2) (hk3 : k ≠ 3) (hk4 : k ≠ 4)
    (hk5 : k ≠ 5) (hk6 : k ≠ 6) (v : List Nat) (hv : Skippable v)
    (re : ErgoSignature) (hwe : WFErgo re) (fs1 fs2 : List (List Nat))
    (hsplit2 : ergoEntries re = fs1 ++ fs2) (k2 : Nat) (hK : k2 < 256)
    (hK1 : k2 ≠ 1) (hK2 : k2 ≠ 2) (w : List Nat) (hw : Skippable w) :
    SuiSignRequest.decode
      (encMapH (rs.mapSize + 1) ++ (es1 ++ (encUInt k ++ v) :: es2).flatten) = .ok rs ∧
    ErgoSignature.decode (encMapH 2 ++ (ergoEntries re).flatten) = .ok re ∧
    ErgoSignature.decode
      (encMapH 3 ++ (fs1 ++ (encUInt k2 ++ w) :: fs2).flatten) = .ok re := by
  refine ⟨?_, ergo_decode_valid re hwe, ?_⟩
  · have hch0 := sui_chain rs hwf
    rw [hsplit] at hch0
    have hch := chain_insert hch0
      (fun t => sui_neutral k hk hk1 hk2 hk3 hk4 hk5 hk6 v hv t)
    have h0 := suiEntriesCore_length 37 304 rs.signType.toU32 rs
    rw [hsplit] at h0
    have hlen : rs.mapSize + 1 = (es1 ++ (encUInt k ++ v) :: es2).length := by
      simp at h0 ⊢
      omega
    have hsz := sui_mapSize_le rs
    unfold SuiSignRequest.decode cborMap
    rw [show (es1 ++ (encUInt k ++ v) :: es2).flatten
        = (es1 ++ (encUInt k ++ v) :: es2).flatten ++ [] from by simp]
    simp only [dMapH_enc (rs.mapSize + 1) (by omega)]
    rw [hlen]
    simp only [chain_loop hch []]
  · have hch0 := ergo_chain re hwe
    rw [hsplit2] at hch0
    have hch := chain_insert hch0 (fun t => ergo_neutral k2 hK hK1 hK2 w hw t)
    have h0 : (fs1 ++ fs2).length = 2 := by
      rw [← hsplit2]
      unfold ergoEntries
      simp
    have hlen : (3 : Nat) = (fs1 ++ (encUInt k2 ++ w) :: fs2).length := by
      simp at h0 ⊢
      omega
    unfold ErgoSignature.decode cborMap
    rw [show (fs1 ++ (encUInt k2 ++ w) :: fs2).flatten
        = (fs1 ++ (encUInt k2 ++ w) :: fs2).flatten ++ [] from by simp]
    simp only [dMapH_enc 3 (by norm_num)]
    rw [hlen]
    simp only [chain_loop hch []]

theorem claim_C4_witness :
    SuiSignRequest.decode
      (encMapH (wSui.mapSize + 1)
        ++ ([] ++ (encUInt 9 ++ [0]) :: suiEntriesCore 37 304 wSui.signType.toU32 wSui).flatten)
      = .ok wSui ∧
    ErgoSignature.decode (encMapH 2 ++ (ergoEntries wErgo).flatten) = .ok wErgo ∧
    ErgoSignature.decode
      (encMapH 3 ++ ([] ++ (encUInt 9 ++ [0]) :: ergoEntries wErgo).flatten) = .ok wErgo :=
  claim_C4 wSui wSui_wf (by decide)
    [] (suiEntriesCore 37 304 wSui.signType.toU32 wSui) (List.nil_append _).symm
    9 (by norm_num) (by norm_num) (by norm_num) (by norm_num) (by norm_num)
    (by norm_num) (by norm_num) [0] (fun rest => rfl)
    wErgo ⟨by norm_num [wErgo], by norm_num [wErgo]⟩
    [] (ergoEntries wErgo) (List.nil_append _).symm
    9 (by norm_num) (by norm_num) (by norm_num) [0] (fun rest => rfl)

/-- C5: encoding a `SuiSignRequest` whose derivation-path list is empty
fails with the policy error "derivation paths is invalid"; the caller
receives the error and no output bytes. -/
theorem claim_C5 (r : SuiSignRequest) (h : r.derivationPaths = []) :
    SuiSignRequest.encode r = .error "derivation paths is invalid" := by
  unfold SuiSignRequest.encode encodeSuiCore
  rw [if_pos (by simp [h])]

theorem claim_C5_witness :
    SuiSignRequest.encode SuiSignRequest.dflt = .error "derivation paths is invalid" :=
  claim_C5 SuiSignRequest.dflt rfl

/-- C6: altering the UUID tag preceding the request identifier (for both
`SuiSignRequest` and `ErgoSignature`), or the crypto-keypath registry
tag (304) preceding a nested key-path element, to any other tag value
makes decode fail with the corresponding tag-mismatch error, never
returning a record. -/
theorem claim_C6 (r : SuiSignRequest) (hwf : WFSui r) (rid : List Nat)
    (hrid : r.requestId = some rid) (p : CryptoKeyPath) (ps : List CryptoKeyPath)
    (hdp : r.derivationPaths = p :: ps)
    (t : Nat) (ht64 : t < 18446744073709551616) (ht : t ≠ 37)
    (u : Nat) (hu64 : u < 18446744073709551616) (hu : u ≠ 304)
    (re : ErgoSignature) (t2 : Nat) (ht64b : t2 < 18446744073709551616) (ht2 : t2 ≠ 37) :
    Except.bind (encodeSuiCore t 304 r.signType.toU32 r) SuiSignRequest.decode
      = .error "UUID tag is invalid" ∧
    Except.bind (encodeSuiCore 37 u r.signType.toU32 r) SuiSignRequest.decode
      = .error "CryptoKeyPath tag is invalid" ∧
    ErgoSignature.decode (encodeErgoCore t2 re) = .error "UUID tag is invalid" := by
  have hne2 : ¬r.derivationPaths.isEmpty := by simp [hdp]
  refine ⟨?_, ?_, ?_⟩
  · rw [encodeSuiCore_entries t 304 _ r hne2]
    simp only [Except.bind]
    have hflat : (suiEntriesCore t 304 r.signType.toU32 r).flatten
        = (encUInt 1 ++ encTag t ++ encBytesV rid)
          ++ ([encUInt 2 ++ encBytesV r.signData]
            ++ [encUInt 3 ++ encUInt r.signType.toU32]
            ++ [encUInt 4 ++ encArrayH r.derivationPaths.length
                ++ (r.derivationPaths.flatMap fun q => encTag 304 ++ CryptoKeyPath.encode q)]
            ++ suiEntry5 r ++ suiEntry6 r).flatten := by
      unfold suiEntriesCore suiEntry1
      rw [hrid]
      simp
    unfold SuiSignRequest.decode cborMap
    simp only [dMapH_enc r.mapSize (by have := sui_mapSize_le r; omega)]
    rw [hflat, mapLoop_error (sui_badUuid_step SuiSignRequest.dflt t ht64 ht rid _)
      (sui_mapSize_pos r)]
  · rw [encodeSuiCore_entries 37 u _ r hne2]
    simp only [Except.bind]
    have hAB : suiEntriesCore 37 u r.signType.toU32 r
        = (suiEntry1 37 r ++ [encUInt 2 ++ encBytesV r.signData]
            ++ [encUInt 3 ++ encUInt r.signType.toU32])
          ++ ([encUInt 4 ++ encArrayH r.derivationPaths.length
                ++ (r.derivationPaths.flatMap fun q => encTag u ++ CryptoKeyPath.encode q)]
              ++ suiEntry5 r ++ suiEntry6 r) := by
      unfold suiEntriesCore
      simp [List.append_assoc]
    unfold SuiSignRequest.decode cborMap
    simp only [dMapH_enc r.mapSize (by have := sui_mapSize_le r; omega)]
    rw [hAB, List.flatten_append]
    have hms : r.mapSize
        = (suiEntry1 37 r ++ [encUInt 2 ++ encBytesV r.signData]
            ++ [encUInt 3 ++ encUInt r.signType.toU32]).length
          + ([encUInt 4 ++ encArrayH r.derivationPaths.length
                ++ (r.derivationPaths.flatMap fun q => encTag u ++ CryptoKeyPath.encode q)]
              ++ suiEntry5 r ++ suiEntry6 r).length := by
      rw [← suiEntriesCore_length 37 u r.signType.toU32 r, hAB]
      simp
      omega
    rw [hms, chain_loop_partial (sui_chain_pre3 r hwf)]
    have hplen : r.derivationPaths.length < 18446744073709551616 := hwf.2.2.1
    rw [hdp] at hplen
    have hshape : ([encUInt 4 ++ encArrayH r.derivationPaths.length
        ++ (r.derivationPaths.flatMap fun q => encTag u ++ CryptoKeyPath.encode q)]
        ++ suiEntry5 r ++ suiEntry6 r).flatten
        = encUInt 4 ++ (encArrayH (ps.length + 1) ++ (encTag u
            ++ (CryptoKeyPath.encode p
              ++ ((ps.flatMap fun q => encTag u ++ CryptoKeyPath.encode q)
                ++ (suiEntry5 r ++ suiEntry6 r).flatten)))) := by
      rw [hdp]
      simp [List.append_assoc]
    rw [hshape, mapLoop_error (sui_badKpTag_step _ u hu64 hu (ps.length + 1)
      (by omega) (by simpa using hplen) _) (by simp)]
  · have hshape : encodeErgoCore t2 re
        = encMapH 3 ++ ((encUInt 1 ++ encTag t2 ++ encBytesV re.requestId)
            ++ (encUInt 2 ++ encBytesV re.signature)) := by
      unfold encodeErgoCore
      simp [List.append_assoc]
    rw [hshape]
    unfold ErgoSignature.decode cborMap
    simp only [dMapH_enc 3 (by norm_num)]
    rw [mapLoop_error (ergo_badUuid_step ErgoSignature.dflt t2 ht64b ht2 re.requestId _)
      (by norm_num)]

theorem claim_C6_witness :
    Except.bind (encodeSuiCore 38 304 wSuiRid.signType.toU32 wSuiRid) SuiSignRequest.decode
      = .error "UUID tag is invalid" ∧
    Except.bind (encodeSuiCore 37 305 wSuiRid.signType.toU32 wSuiRid) SuiSignRequest.decode
      = .error "CryptoKeyPath tag is invalid" ∧
    ErgoSignature.decode (encodeErgoCore 99 wErgo) = .error "UUID tag is invalid" :=
  claim_C6 wSuiRid wSuiRid_wf [171] rfl ⟨[], none, none⟩ [] rfl
    38 (by norm_num) (by norm_num) 305 (by norm_num) (by norm_num)
    wErgo 99 (by norm_num) (by norm_num)

/-- C7: `SignType::from_u32` maps 1, 2, 3 to the three variants and
rejects every other u32 with the invalid-enum error, so decoding a Sui
buffer whose sign-type discriminator lies outside the closed set fails
with that error; no out-of-range value is clamped. -/
theorem claim_C7 (x : Nat) (hx32 : x < 4294967296) (hx1 : x ≠ 1) (hx2 : x ≠ 2)
    (hx3 : x ≠ 3) (r : SuiSignRequest) (hwf : WFSui r) (hne : r.derivationPaths ≠ []) :
    SuiSignType.fromU32 1 = .ok .Single ∧
    SuiSignType.fromU32 2 = .ok .Multi ∧
    SuiSignType.fromU32 3 = .ok .Message ∧
    SuiSignType.fromU32 x
      = .error ("invalid value for sign_type in sui-sign-request, expected (1, 2, 3), received "
        ++ toString x) ∧
    Except.bind (encodeSuiCore 37 304 x r) SuiSignRequest.decode
      = .error ("invalid value for sign_type in sui-sign-request, expected (1, 2, 3), received "
        ++ toString x) := by
  have hne2 : ¬r.derivationPaths.isEmpty := by simpa [List.isEmpty_iff] using hne
  refine ⟨rfl, rfl, rfl, ?_, ?_⟩
  · unfold SuiSignType.fromU32
    rw [if_neg hx1, if_neg hx2, if_neg hx3]
  · rw [encodeSuiCore_entries 37 304 x r hne2]
    simp only [Except.bind]
    have hAB : suiEntriesCore 37 304 x r
        = (suiEntry1 37 r ++ [encUInt 2 ++ encBytesV r.signData])
          ++ ([encUInt 3 ++ encUInt x]
            ++ ([encUInt 4 ++ encArrayH r.derivationPaths.length
                  ++ (r.derivationPaths.flatMap fun q => encTag 304 ++ CryptoKeyPath.encode q)]
                ++ suiEntry5 r ++ suiEntry6 r)) := by
      unfold suiEntriesCore
      simp [List.append_assoc]
    unfold SuiSignRequest.decode cborMap
    simp only [dMapH_enc r.mapSize (by have := sui_mapSize_le r; omega)]
    rw [hAB, List.flatten_append]
    have hms : r.mapSize
        = (suiEntry1 37 r ++ [encUInt 2 ++ encBytesV r.signData]).length
          + ([encUInt 3 ++ encUInt x]
            ++ ([encUInt 4 ++ encArrayH r.derivationPaths.length
                  ++ (r.derivationPaths.flatMap fun q => encTag 304 ++ CryptoKeyPath.encode q)]
                ++ suiEntry5 r ++ suiEntry6 r)).length := by
      rw [← suiEntriesCore_length 37 304 x r, hAB]
      simp
      omega
    rw [hms, chain_loop_partial (sui_chain_pre r hwf)]
    have hflat : ([encUInt 3 ++ encUInt x]
        ++ ([encUInt 4 ++ encArrayH r.derivationPaths.length
              ++ (r.derivationPaths.flatMap fun q => encTag 304 ++ CryptoKeyPath.encode q)]
            ++ suiEntry5 r ++ suiEntry6 r)).flatten
        = (encUInt 3 ++ encUInt x)
          ++ ([encUInt 4 ++ encArrayH r.derivationPaths.length
                ++ (r.derivationPaths.flatMap fun q => encTag 304 ++ CryptoKeyPath.encode q)]
              ++ suiEntry5 r ++ suiEntry6 r).flatten := by
      simp
    rw [hflat, mapLoop_error (sui_badSignType_step _ x hx32 hx1 hx2 hx3 _) (by simp)]

theorem claim_C7_witness :
    SuiSignType.fromU32 1 = .ok .Single ∧
    SuiSignType.fromU32 2 = .ok .Multi ∧
    SuiSignType.fromU32 3 = .ok .Message ∧
    SuiSignType.fromU32 4
      = .error ("invalid value for sign_type in sui-sign-request, expected (1, 2, 3), received "
        ++ toString 4) ∧
    Except.bind (encodeSuiCore 37 304 4 wSui) SuiSignRequest.decode
      = .error ("invalid value for sign_type in sui-sign-request, expected (1, 2, 3), received "
        ++ toString 4) :=
  claim_C7 4 (by norm_num) (by norm_num) (by norm_num) (by norm_num) wSui wSui_wf
    (by decide)

/-- C8: the registry-table tags all match the table in the spec, but three
registry NAMES do not: the constants for cosmos and tron sign requests
really return "sol-sign-request", "sol-signature" and
"tron-sign-request-kt" — contradicting the constant names and the
`// Cosmos` comment in `registry_types.rs` — so `get_type()` does not
return the names cosmos-sign-request / cosmos-signature /
tron-sign-request claimed. -/
theorem claim_C8 :
    UUID.getType = "uuid" ∧ UUID.getTag = 37 ∧
    CRYPTO_HDKEY.getType = "crypto-hdkey" ∧ CRYPTO_HDKEY.getTag = 303 ∧
    CRYPTO_KEYPATH.getType = "crypto-keypath" ∧ CRYPTO_KEYPATH.getTag = 304 ∧
    CRYPTO_COIN_INFO.getType = "crypto-coin-info" ∧ CRYPTO_COIN_INFO.getTag = 305 ∧
    CRYPTO_ECKEY.getType = "crypto-eckey" ∧ CRYPTO_ECKEY.getTag = 306 ∧
    CRYPTO_OUTPUT.getType = "crypto-output" ∧ CRYPTO_OUTPUT.getTag = 308 ∧
    CRYPTO_PSBT.getType = "crypto-psbt" ∧ CRYPTO_PSBT.getTag = 310 ∧
    CRYPTO_ACCOUNT.getType = "crypto-account" ∧ CRYPTO_ACCOUNT.getTag = 311 ∧
    CRYPTO_MULTI_ACCOUNTS.getType = "crypto-multi-accounts" ∧
    CRYPTO_MULTI_ACCOUNTS.getTag = 1103 ∧
    ETH_SIGN_REQUEST.getType = "eth-sign-request" ∧ ETH_SIGN_REQUEST.getTag = 401 ∧
    ETH_SIGNATURE.getType = "eth-signature" ∧ ETH_SIGNATURE.getTag = 402 ∧
    SOL_SIGN_REQUEST.getType = "sol-sign-request" ∧ SOL_SIGN_REQUEST.getTag = 1101 ∧
    SOL_SIGNATURE.getType = "sol-signature" ∧ SOL_SIGNATURE.getTag = 1102 ∧
    COSMOS_SIGN_REQUEST.getTag = 4101 ∧ COSMOS_SIGNATURE.getTag = 4102 ∧
    TRON_SIGN_REQUEST.getTag = 5101 ∧ TRON_SIGNATURE.getTag = 5102 ∧
    TRON_SIGNATURE.getType = "tron-signature" ∧
    COSMOS_SIGN_REQUEST.getType = "sol-sign-request" ∧
    COSMOS_SIGN_REQUEST.getType ≠ "cosmos-sign-request" ∧
    COSMOS_SIGNATURE.getType = "sol-signature" ∧
    COSMOS_SIGNATURE.getType ≠ "cosmos-signature" ∧
    TRON_SIGN_REQUEST.getType = "tron-sign-request-kt" ∧
    TRON_SIGN_REQUEST.getType ≠ "tron-sign-request" := by
  decide

/-- C9: decode performs no required-field validation: the empty map
decodes to the all-default record, a map carrying only an (empty)
derivation-path list or only a sign type also decodes successfully —
while encode rejects the very same default record for its empty
derivation-path list. -/
theorem claim_C9 :
    SuiSignRequest.decode [160] = .ok SuiSignRequest.dflt ∧
    SuiSignRequest.decode [161, 4, 128] = .ok SuiSignRequest.dflt ∧
    SuiSignRequest.decode [161, 3, 2] = .ok ⟨none, [], .Multi, [], none, none⟩ ∧
    SuiSignRequest.encode SuiSignRequest.dflt = .error "derivation paths is invalid" :=
  ⟨rfl, rfl, rfl, rfl⟩

/-- C10: a map key whose integer value exceeds `u8` (e.g. 256) makes the
whole decode of `SuiSignRequest` and `ErgoSignature` fail with the
`u8::try_from` conversion error instead of being skipped as an unknown
key. -/
theorem claim_C10 (k : Nat) (hk : 255 < k) (hk64 : k < 18446744073709551616) :
    SuiSignRequest.decode (encMapH 1 ++ (encUInt k ++ [0]))
      = .error "out of range integral type conversion attempted" ∧
    ErgoSignature.decode (encMapH 1 ++ (encUInt k ++ [0]))
      = .error "out of range integral type conversion attempted" := by
  constructor
  · unfold SuiSignRequest.decode cborMap
    simp only [dMapH_enc 1 (by norm_num)]
    rw [mapLoop_error (sui_bigKey_step SuiSignRequest.dflt k hk hk64 [0]) (by norm_num)]
  · unfold ErgoSignature.decode cborMap
    simp only [dMapH_enc 1 (by norm_num)]
    rw [mapLoop_error (ergo_bigKey_step ErgoSignature.dflt k hk hk64 [0]) (by norm_num)]

theorem claim_C10_witness :
    SuiSignRequest.decode (encMapH 1 ++ (encUInt 256 ++ [0]))
      = .error "out of range integral type conversion attempted" ∧
    ErgoSignature.decode (encMapH 1 ++ (encUInt 256 ++ [0]))
      = .error "out of range integral type conversion attempted" :=
  claim_C10 256 (by norm_num) (by norm_num)
